import Mathlib

/-!
# Script console of AllJoyn.js (`ajs_console.c`)

A shallow embedding of the console message handler: the module's globals
(`engineState`, `consoleSession`, `consoleBusName`) are fields of an explicit
`State`; calls into the bus library, the script engine and the script storage
are answered by the fields of `Env` and `AJ_Message` and are recorded, in call
order, as a list of `Event`s returned next to the status code.
-/

namespace AJSConsole

/-! ## Constants of the module -/

/-- Port number for the console service (`#define SCRIPT_CONSOLE_PORT 7714`). -/
def SCRIPT_CONSOLE_PORT : Nat := 7714

/-- Reply code: script compiled and ran successfully. -/
def SCRIPT_OK : Nat := 0
/-- Reply code: script did not compile. -/
def SCRIPT_SYNTAX_ERROR : Nat := 1
/-- Reply code: script compiled but did not run. -/
def SCRIPT_EVAL_ERROR : Nat := 2
/-- Reply code: insufficient resources. -/
def SCRIPT_RESOURCE_ERROR : Nat := 3
/-- Reply code: reset required before a script can be installed. -/
def SCRIPT_NEED_RESET_ERROR : Nat := 4
/-- Reply code: an undiagnosed internal error. -/
def SCRIPT_INTERNAL_ERROR : Nat := 5

/-- Maximum size of an eval expression (`static const size_t MAX_EVAL_LEN = 1024`). -/
def MAX_EVAL_LEN : Nat := 1024

/-- Size of the `consoleBusName` array (`static char consoleBusName[16]`). -/
def sizeofConsoleBusName : Nat := 16

/-- The engine states of `typedef enum { ... } EngineState`. -/
inductive EngineState
  | ENGINE_RUNNING
  | ENGINE_CLEAN
  | ENGINE_DIRTY
  deriving DecidableEq, Repr

/-- The status codes the module assigns itself, and `AJ_ERR_BUS code` for a
failure reported by a call into the bus library: the codes of the library are
kept apart from the ones the module assigns. -/
inductive AJ_Status
  | AJ_OK
  | AJ_ERR_RESOURCES
  | AJ_ERR_NO_MATCH
  | AJ_ERR_RESTART_APP
  | AJ_ERR_UNEXPECTED
  | AJ_ERR_BUS (code : Nat)
  deriving DecidableEq, Repr

/-- What a call into the bus library reports: `AJ_OK` or one of its failure codes. -/
inductive BusResult
  | ok
  | fail (code : Nat)
  deriving DecidableEq, Repr

/-- The `AJ_Status` value of a bus library result. -/
def BusResult.toStatus : BusResult → AJ_Status
  | .ok => .AJ_OK
  | .fail code => .AJ_ERR_BUS code

/-- The message identifiers the handler compares `msg->msgId` with; `other`
stands for every identifier that is none of them. -/
inductive MsgId
  | AJ_METHOD_ACCEPT_SESSION
  | AJ_SIGNAL_SESSION_LOST_WITH_REASON
  | GET_PROP_MSGID
  | SET_PROP_MSGID
  | EVAL_MSGID
  | INSTALL_MSGID
  | RESET_MSGID
  | REBOOT_MSGID
  | PRINT_SIGNAL_MSGID
  | ALERT_SIGNAL_MSGID
  | other (id : Nat)
  deriving DecidableEq, Repr

/-- The property identifiers `PropGetHandler` switches on. -/
inductive PropId
  | SCRIPT_ENGINE_PROP
  | MAX_EVAL_LEN_PROP
  | MAX_SCRIPT_LEN_PROP
  | other (id : Nat)
  deriving DecidableEq, Repr

/-- The values `EvalReply` switches on: the return codes of the script engine
named in the source; `other` stands for every other `int`. -/
inductive DukRet
  | DUK_EXEC_SUCCESS
  | DUK_RET_EVAL_ERROR
  | DUK_RET_TYPE_ERROR
  | DUK_RET_RANGE_ERROR
  | DUK_RET_SYNTAX_ERROR
  | DUK_RET_ALLOC_ERROR
  | other (code : Int)
  deriving DecidableEq, Repr

/-- One scripted answer of `AJ_UnmarshalRaw`: a failure code, or the bytes the
transport has ready at the returned pointer. -/
inductive RawRead
  | ok (data : List Nat)
  | fail (code : Nat)
  deriving DecidableEq, Repr

/-- The calls the module makes into its collaborators, with their arguments. -/
inductive Event
  | UnmarshalArgs (sig : String)
  | UnmarshalRaw (len : Nat)
  | ResetArgs
  | BusReplyAcceptSession (accept : Bool)
  | MarshalReplyMsg
  | MarshalArgs (replyStatus : Nat) (replyTxt : String)
  | MarshalStatusMsg (status : AJ_Status)
  | MarshalProp (value : String)
  | DeliverMsg
  | BusPropGet
  | BusPropSet
  | Malloc (size : Nat)
  | Free
  | Compile (src : List Nat) (retval : DukRet)
  | Pcall (retval : DukRet)
  | OpenScript
  | WriteScript (data : List Nat)
  | CloseScript
  | Reboot
  deriving DecidableEq, Repr

/-- The inbound message as the handler sees it through the bus library. -/
structure AJ_Message where
  /-- Field `msg->msgId`. -/
  msgId : MsgId
  /-- Field `msg->hdr->endianess`: `true` when the sender is big-endian. -/
  bigEndian : Bool
  /-- Answer of `AJ_UnmarshalArgs(msg, "qus", &port, &sessionId, &joiner)`. -/
  qus : Except Nat (Nat × Nat × String)
  /-- Answer of `AJ_UnmarshalArgs(msg, "u", &sessionId)`. -/
  u : Except Nat Nat
  /-- Answer of `AJ_UnmarshalArgs(msg, "s", &scriptName)`. -/
  s : Except Nat String
  /-- Answer of `AJ_ResetArgs(msg)`. -/
  resetArgs : BusResult
  /-- Answer of the property lookup made inside `AJ_BusPropGet` / `AJ_BusPropSet`. -/
  prop : Except Nat PropId

/-- The collaborators and the platform. -/
structure Env where
  /-- Host byte order (`AJ_NATIVE_ENDIAN` is big-endian). -/
  hostBigEndian : Bool
  /-- Number of bytes of a `size_t`. -/
  sizeofSizeT : Nat
  /-- Answer of `AJ_DeliverMsg`. -/
  deliver : BusResult
  /-- Answer of `AJ_BusReplyAcceptSession`. -/
  replyAccept : BusResult
  /-- Failure code of `AJ_UnmarshalRaw` once the message body is exhausted. -/
  rawEof : Nat
  /-- What the receive buffer holds past the bytes a read delivered: byte `i`
  after the last delivered one. -/
  rxStale : Nat → Nat
  /-- Whether `AJ_Malloc(size)` returns a non-NULL pointer. -/
  malloc : Nat → Bool
  /-- Answer of `duk_pcompile_lstring_filename` for a source: the return value
  and the string form of the value left on top of the value stack. -/
  compile : List Nat → DukRet × String
  /-- Answer of `duk_pcall` on the function compiled from a source. -/
  pcall : List Nat → DukRet × String
  /-- Answer of `AJS_GetMaxScriptLen()`. -/
  maxScriptLen : Nat
  /-- Answer of `AJ_MarshalArgs` on a property reply. -/
  marshalProp : BusResult
  /-- The indeterminate content of the local `replyStatus` of `EvalReply`
  before any assignment. -/
  uninit : Nat

/-- The globals of the module, the engine context and the unread raw body. -/
structure State where
  /-- Global `engineState`. -/
  engineState : EngineState
  /-- Global `consoleSession`; zero means no session. -/
  consoleSession : Nat
  /-- Global `consoleBusName`, up to its terminating NUL. -/
  consoleBusName : String
  /-- Value stack of the engine context, top first, in string form. -/
  stack : List String
  /-- Property `scriptName` of the engine's global stash. -/
  scriptName : Option String
  /-- The answers `AJ_UnmarshalRaw` has not given yet. -/
  raw : List RawRead
  deriving DecidableEq, Repr

/-- The state at program start: `engineState = ENGINE_RUNNING`,
`consoleSession = 0`, `consoleBusName` zeroed. -/
def State.init (raw : List RawRead) : State :=
  { engineState := .ENGINE_RUNNING, consoleSession := 0, consoleBusName := "",
    stack := [], scriptName := none, raw := raw }

/-- What a function of the module leaves behind: its return value, the state
and the calls it made. -/
structure Out where
  status : AJ_Status
  st : State
  events : List Event

/-! ## Byte order -/

/-- The macro `ENDSWAP32(v)` evaluated in an unsigned type of `bits` bits
(32 for `uint32_t`, `8 * sizeof(size_t)` for `size_t`). -/
def ENDSWAP32 (bits : Nat) (v : Nat) : Nat :=
  ((v >>> 24) ||| ((v &&& 0xFF0000) >>> 8) ||| ((v &&& 0x00FF00) <<< 8) ||| ((v <<< 24) % 2 ^ bits))
    % 2 ^ bits

/-- Little-endian value of a byte list. -/
def leValue : List Nat → Nat
  | [] => 0
  | b :: bs => b % 256 + 256 * leValue bs

/-- Function `memcpy(&len, raw, n)`: the value of an `n`-byte unsigned integer
whose storage holds the first `n` bytes at `raw`. The copy does not look at
`sz`: where the read delivered fewer than `n` bytes, the missing ones are what
the receive buffer holds there (`stale`). -/
def memcpyLen (hostBigEndian : Bool) (stale : Nat → Nat) (n : Nat) (raw : List Nat) : Nat :=
  let bytes := (raw ++ (List.range n).map stale).take n
  if hostBigEndian then leValue bytes.reverse else leValue bytes

/-- The declared length: `memcpy` of the first `n` bytes followed by the
conditional `ENDSWAP32`. -/
def declaredLen (env : Env) (msg : AJ_Message) (n : Nat) (raw : List Nat) : Nat :=
  let len := memcpyLen env.hostBigEndian env.rxStale n raw
  if msg.bigEndian != env.hostBigEndian then ENDSWAP32 (8 * n) len else len

/-! ## Transport reads -/

/-- Library call `AJ_UnmarshalRaw(msg, &raw, len, &sz)`: the next scripted
answer; at most `len` bytes are handed out (`sz ≤ len`), and an exhausted body
is a failure. -/
def AJ_UnmarshalRaw (env : Env) (raw : List RawRead) (len : Nat) :
    Except Nat (List Nat) × List RawRead :=
  match raw with
  | [] => (.error env.rawEof, [])
  | .fail code :: rest => (.error code, rest)
  | .ok data :: rest => (.ok (data.take len), rest)

/-- Result of a chunk loop. -/
structure Loop where
  /-- Failure code of the read that aborted the loop, if any. -/
  err : Option Nat
  /-- Bytes copied to the sink so far, in order. -/
  buf : List Nat
  /-- Bytes remaining (`l` in `Eval`, `len` in `Install`). -/
  remaining : Nat
  /-- Unread answers of the transport. -/
  raw : List RawRead
  /-- Calls made, in order. -/
  events : List Event

/-- The loop `while (l) { status = AJ_UnmarshalRaw(msg, &raw, l, &sz);
if (status != AJ_OK) { ... goto ErrorReply; } <copy sz bytes>; l -= sz; }` of
`Eval` and of `Install`. The copy is `memcpy(p, raw, sz); p += sz` in `Eval`
(`sink` gives no call) and `AJS_WriteScript(scriptf, raw, sz)` in `Install`.
Each turn takes the next answer of the transport, as `AJ_UnmarshalRaw` does. -/
def chunkLoop (env : Env) (sink : List Nat → List Event) :
    List RawRead → Nat → List Nat → Loop
  | raw, 0, js => { err := none, buf := js, remaining := 0, raw := raw, events := [] }
  | [], l + 1, js =>
    { err := some env.rawEof, buf := js, remaining := l + 1, raw := [],
      events := [.UnmarshalRaw (l + 1)] }
  | .fail code :: rest, l + 1, js =>
    { err := some code, buf := js, remaining := l + 1, raw := rest,
      events := [.UnmarshalRaw (l + 1)] }
  | .ok data :: rest, l + 1, js =>
    let chunk := data.take (l + 1)
    let r := chunkLoop env sink rest (l + 1 - chunk.length) (js ++ chunk)
    { r with events := .UnmarshalRaw (l + 1) :: sink chunk ++ r.events }

/-- The values of the remaining-byte counter passed to `AJ_UnmarshalRaw`, in call order. -/
def requested : List Event → List Nat
  | [] => []
  | .UnmarshalRaw len :: es => len :: requested es
  | _ :: es => requested es

/-! ## Eval -/

/-- The loop `while (len && !js[len - 1]) { --len; }` of `Eval`. -/
def stripNuls (js : List Nat) : Nat → Nat
  | 0 => 0
  | len + 1 => if js.getD len 0 = 0 then stripNuls js len else len + 1

/-- The source handed to `duk_pcompile_lstring_filename(ctx, 0, js, len)`:
the first `len` bytes of `js`, with `len` as the NUL stripping loop left it. -/
def evalSource (js : List Nat) (len : Nat) : List Nat :=
  js.take (stripNuls js len)

/-- The `switch (dukStatus)` of `EvalReply`. The three cases that `break`
without an assignment leave `replyStatus` (a `uint8_t`) as it was. -/
def replyStatusOf (uninit : Nat) : DukRet → Nat
  | .DUK_EXEC_SUCCESS => SCRIPT_OK
  | .DUK_RET_EVAL_ERROR => uninit % 256
  | .DUK_RET_TYPE_ERROR => uninit % 256
  | .DUK_RET_RANGE_ERROR => uninit % 256
  | .DUK_RET_SYNTAX_ERROR => SCRIPT_SYNTAX_ERROR
  | .DUK_RET_ALLOC_ERROR => SCRIPT_RESOURCE_ERROR
  | .other _ => SCRIPT_INTERNAL_ERROR

/-- Function `EvalReply(ctx, msg, dukStatus)`: marshal the reply with the
status code and the string on top of the value stack, pop it, deliver. -/
def EvalReply (env : Env) (s : State) (dukStatus : DukRet) : Out :=
  let replyStatus := replyStatusOf env.uninit dukStatus
  let replyTxt := s.stack.headD ""
  { status := env.deliver.toStatus,
    st := { s with stack := s.stack.tail },
    events := [.MarshalReplyMsg, .MarshalArgs replyStatus replyTxt, .DeliverMsg] }

/-- The label `ErrorReply:` of `Eval` and `Install`:
`AJ_MarshalStatusMsg(msg, &error, status); return AJ_DeliverMsg(&error);`. -/
def ErrorReply (env : Env) (s : State) (status : AJ_Status) (events : List Event) : Out :=
  { status := env.deliver.toStatus, st := s,
    events := events ++ [.MarshalStatusMsg status, .DeliverMsg] }

/-- Function `Eval(ctx, msg)`. -/
def Eval (env : Env) (msg : AJ_Message) (s : State) : Out :=
  match AJ_UnmarshalRaw env s.raw 4 with
  | (.error code, raw1) =>
    ErrorReply env { s with raw := raw1 } (.AJ_ERR_BUS code) [.UnmarshalRaw 4]
  | (.ok hdr, raw1) =>
    let len := declaredLen env msg 4 hdr
    if len > MAX_EVAL_LEN then
      let s1 := { s with raw := raw1, stack := "Eval expression too long" :: s.stack }
      let r := EvalReply env s1 .DUK_RET_ALLOC_ERROR
      { r with events := .UnmarshalRaw 4 :: r.events }
    else if !env.malloc len then
      ErrorReply env { s with raw := raw1 } .AJ_ERR_RESOURCES [.UnmarshalRaw 4, .Malloc len]
    else
      let lp := chunkLoop env (fun _ => []) raw1 len []
      match lp.err with
      | some code =>
        ErrorReply env { s with raw := lp.raw } (.AJ_ERR_BUS code)
          (.UnmarshalRaw 4 :: .Malloc len :: lp.events ++ [.Free])
      | none =>
        let src := evalSource lp.buf len
        let c := env.compile src
        let s2 := { s with raw := lp.raw, stack := c.2 :: ("ConsoleInput.js" :: s.stack).tail }
        let evs := .UnmarshalRaw 4 :: .Malloc len :: lp.events ++ [.Compile src c.1, .Free]
        if c.1 = .DUK_EXEC_SUCCESS then
          let p := env.pcall src
          let s3 := { s2 with stack := p.2 :: s2.stack.tail }
          let s4 := if p.1 = .DUK_EXEC_SUCCESS then { s3 with engineState := .ENGINE_DIRTY } else s3
          let r := EvalReply env s4 p.1
          { r with events := evs ++ .Pcall p.1 :: r.events }
        else
          let r := EvalReply env s2 c.1
          { r with events := evs ++ r.events }

/-! ## Install, Reset, properties -/

/-- Function `Install(ctx, msg)`. -/
def Install (env : Env) (msg : AJ_Message) (s : State) : Out :=
  if s.engineState ≠ .ENGINE_CLEAN then
    { status := env.deliver.toStatus, st := s,
      events := [.MarshalReplyMsg, .MarshalArgs SCRIPT_NEED_RESET_ERROR "Reset required",
                 .DeliverMsg] }
  else
    match msg.s with
    | .error code => ErrorReply env s (.AJ_ERR_BUS code) [.UnmarshalArgs "s"]
    | .ok scriptName =>
      let s1 := { s with stack := "[object Object]" :: s.stack, scriptName := some scriptName }
      match AJ_UnmarshalRaw env s1.raw env.sizeofSizeT with
      | (.error code, raw1) =>
        ErrorReply env { s1 with raw := raw1 } (.AJ_ERR_BUS code)
          [.UnmarshalArgs "s", .UnmarshalRaw env.sizeofSizeT]
      | (.ok hdr, raw1) =>
        let len := declaredLen env msg env.sizeofSizeT hdr
        let evs := [.UnmarshalArgs "s", .UnmarshalRaw env.sizeofSizeT, .MarshalReplyMsg]
        if len > env.maxScriptLen then
          { status := env.deliver.toStatus, st := { s1 with raw := raw1 },
            events := evs ++ [.MarshalArgs SCRIPT_RESOURCE_ERROR "Script too long", .DeliverMsg] }
        else
          let lp := chunkLoop env (fun chunk => [.WriteScript chunk]) raw1 len []
          match lp.err with
          | some code =>
            ErrorReply env { s1 with raw := lp.raw } (.AJ_ERR_BUS code)
              (evs ++ .OpenScript :: lp.events ++ [.CloseScript])
          | none =>
            { status := if env.deliver = .ok then .AJ_ERR_RESTART_APP else env.deliver.toStatus,
              st := { s1 with raw := lp.raw },
              events := evs ++ .OpenScript :: lp.events ++
                [.CloseScript, .MarshalArgs SCRIPT_OK "Script installed", .DeliverMsg] }

/-- Function `Reset(msg)`. -/
def Reset (env : Env) (s : State) : Out :=
  match env.deliver with
  | .ok =>
    { status := .AJ_ERR_RESTART_APP, st := { s with engineState := .ENGINE_CLEAN },
      events := [.MarshalReplyMsg, .DeliverMsg] }
  | .fail code =>
    { status := .AJ_ERR_BUS code, st := s, events := [.MarshalReplyMsg, .DeliverMsg] }

/-- Function `PropGetHandler(replyMsg, propId, context)`: the status and the
value marshalled, if any. -/
def PropGetHandler (env : Env) : PropId → AJ_Status × List Event
  | .SCRIPT_ENGINE_PROP => (env.marshalProp.toStatus, [.MarshalProp "JavaScript"])
  | .MAX_EVAL_LEN_PROP => (env.marshalProp.toStatus, [.MarshalProp (toString MAX_EVAL_LEN)])
  | .MAX_SCRIPT_LEN_PROP =>
    (env.marshalProp.toStatus, [.MarshalProp (toString (env.maxScriptLen % 2 ^ 32))])
  | .other _ => (.AJ_ERR_UNEXPECTED, [])

/-- Function `PropSetHandler(replyMsg, propId, context)`. -/
def PropSetHandler (_propId : PropId) : AJ_Status × List Event :=
  (.AJ_ERR_UNEXPECTED, [])

/-- Library call `AJ_BusPropGet(msg, callback, NULL)` / `AJ_BusPropSet`: look
the property up, run the callback, deliver the reply or the status message. -/
def busProp (env : Env) (msg : AJ_Message) (call : Event)
    (callback : PropId → AJ_Status × List Event) (s : State) : Out :=
  match msg.prop with
  | .error code =>
    { status := env.deliver.toStatus, st := s,
      events := [call, .MarshalStatusMsg (.AJ_ERR_BUS code), .DeliverMsg] }
  | .ok propId =>
    let r := callback propId
    { status := env.deliver.toStatus, st := s,
      events := call :: .MarshalReplyMsg :: r.2 ++
        (if r.1 = .AJ_OK then [] else [.MarshalStatusMsg r.1]) ++ [.DeliverMsg] }

/-! ## The message handler -/

/-- The C string a `char*` points to: the characters before the first NUL. -/
def cString (s : String) : String :=
  ⟨s.data.takeWhile (fun c => c != Char.ofNat 0)⟩

/-- Function `strlen(s)`: the number of bytes before the first NUL byte. In
UTF-8 a zero byte occurs only as the character U+0000, so these are the bytes
of the characters before the first NUL. -/
def strlen (s : String) : Nat :=
  (cString s).utf8ByteSize

/-- Function `AJS_ConsoleMsgHandler(ctx, msg)`. -/
def AJS_ConsoleMsgHandler (env : Env) (msg : AJ_Message) (s : State) : Out :=
  if msg.msgId = .AJ_METHOD_ACCEPT_SESSION then
    match msg.qus with
    | .error code => { status := .AJ_ERR_BUS code, st := s, events := [.UnmarshalArgs "qus"] }
    | .ok (port, sessionId, joiner) =>
      if port = SCRIPT_CONSOLE_PORT then
        if s.consoleSession ≠ 0 then
          { status := env.replyAccept.toStatus, st := s,
            events := [.UnmarshalArgs "qus", .BusReplyAcceptSession false] }
        else
          match env.replyAccept with
          | .fail code =>
            { status := .AJ_ERR_BUS code, st := s,
              events := [.UnmarshalArgs "qus", .BusReplyAcceptSession true] }
          | .ok =>
            let sz := strlen joiner + 1
            if sz > sizeofConsoleBusName then
              { status := .AJ_ERR_RESOURCES, st := s,
                events := [.UnmarshalArgs "qus", .BusReplyAcceptSession true] }
            else
              { status := .AJ_OK,
                st := { s with consoleSession := sessionId, consoleBusName := cString joiner },
                events := [.UnmarshalArgs "qus", .BusReplyAcceptSession true] }
      else
        { status := if msg.resetArgs = .ok then .AJ_ERR_NO_MATCH else msg.resetArgs.toStatus,
          st := s, events := [.UnmarshalArgs "qus", .ResetArgs] }
  else if s.consoleSession = 0 then
    { status := .AJ_ERR_NO_MATCH, st := s, events := [] }
  else
    match msg.msgId with
    | .AJ_SIGNAL_SESSION_LOST_WITH_REASON =>
      match msg.u with
      | .error code => { status := .AJ_ERR_BUS code, st := s, events := [.UnmarshalArgs "u"] }
      | .ok sessionId =>
        if sessionId = s.consoleSession then
          { status := .AJ_OK, st := { s with consoleSession := 0 },
            events := [.UnmarshalArgs "u"] }
        else
          { status := if msg.resetArgs = .ok then .AJ_ERR_NO_MATCH else msg.resetArgs.toStatus,
            st := s, events := [.UnmarshalArgs "u", .ResetArgs] }
    | .GET_PROP_MSGID => busProp env msg .BusPropGet (PropGetHandler env) s
    | .SET_PROP_MSGID => busProp env msg .BusPropSet PropSetHandler s
    | .INSTALL_MSGID => Install env msg s
    | .RESET_MSGID => Reset env s
    | .REBOOT_MSGID => { status := .AJ_ERR_NO_MATCH, st := s, events := [.Reboot] }
    | .EVAL_MSGID => Eval env msg s
    | _ => { status := .AJ_ERR_NO_MATCH, st := s, events := [] }

/-- Function `AJS_ConsoleTerminate()`. -/
def AJS_ConsoleTerminate (s : State) : State :=
  { s with consoleSession := 0, engineState := .ENGINE_DIRTY }

/-- The calls expected of a chunk loop that is handed the chunks `cs`, one per
read: each read asks for all the bytes still missing, then the chunk goes to
the sink. -/
def expectedReads (sink : List Nat → List Event) : List (List Nat) → List Event
  | [] => []
  | c :: cs => .UnmarshalRaw ((c :: cs).map List.length).sum :: sink c ++ expectedReads sink cs

/-- The bytes passed to `AJS_WriteScript`, in call order. -/
def written : List Event → List Nat
  | [] => []
  | .WriteScript data :: es => data ++ written es
  | _ :: es => written es

/-! ## Output signalling, start and end of the console -/

/-- Where `AJS_AlertHandler` sends a print or alert: as a signal to the
attached console (`SignalConsole`) or to the local output (`AlertLocal`). -/
inductive AlertOutput
  | signalConsole (sigId : MsgId) (busName : String) (session : Nat)
  | alertLocal (alert : Bool)
  deriving DecidableEq, Repr

/-- Function `AJS_AlertHandler(ctx, alert)`: signal the console when a session
is held, print locally otherwise. Neither path assigns a global. -/
def AJS_AlertHandler (s : State) (alert : Bool) : State × AlertOutput :=
  if s.consoleSession ≠ 0 then
    (s, .signalConsole (if alert then .ALERT_SIGNAL_MSGID else .PRINT_SIGNAL_MSGID)
      s.consoleBusName s.consoleSession)
  else
    (s, .alertLocal alert)

/-- Function `AJS_ConsoleSignalError(ctx)`: `AJS_AlertHandler(ctx, TRUE)` in
a protected call. -/
def AJS_ConsoleSignalError (s : State) : State × AlertOutput :=
  AJS_AlertHandler s true

/-- Function `AJS_ConsoleInit(aj)`: register the objects and bind the session
port; returns the status of `AJ_BusBindSessionPort`. -/
def AJS_ConsoleInit (bind : BusResult) (s : State) : State × AJ_Status :=
  (s, bind.toStatus)

/-! ## Sample inputs -/

/-- A host with 32-bit little-endian `size_t` on which every collaborator
succeeds: every script compiles and runs, storage takes 4096 bytes, and the
receive buffer holds zeros past the delivered bytes. -/
def sampleEnv : Env :=
  { hostBigEndian := false, sizeofSizeT := 4, deliver := .ok, replyAccept := .ok, rawEof := 1,
    rxStale := fun _ => 0,
    malloc := fun _ => true,
    compile := fun _ => (.DUK_EXEC_SUCCESS, "function"),
    pcall := fun _ => (.DUK_EXEC_SUCCESS, "undefined"),
    maxScriptLen := 4096, marshalProp := .ok, uninit := 7 }

/-- A message with the given identifier whose argument reads fail with code 1
and whose `AJ_ResetArgs` succeeds. -/
def sampleMsg (msgId : MsgId) : AJ_Message :=
  { msgId := msgId, bigEndian := false, qus := .error 1, u := .error 1, s := .error 1,
    resetArgs := .ok, prop := .error 1 }

/-- The admission request `admit(port, sessionId, joiner)`. -/
def admitSession (port sessionId : Nat) (joiner : String) : AJ_Message :=
  { sampleMsg .AJ_METHOD_ACCEPT_SESSION with qus := .ok (port, sessionId, joiner) }

/-- The session-lost notification carrying `sessionId`. -/
def sessionLost (sessionId : Nat) : AJ_Message :=
  { sampleMsg .AJ_SIGNAL_SESSION_LOST_WITH_REASON with u := .ok sessionId }

/-- A message of `Install` naming the script `demo`. -/
def installMsg : AJ_Message :=
  { sampleMsg .INSTALL_MSGID with s := .ok "demo" }

/-- A message of `Eval` from a little-endian sender. -/
def evalMsg : AJ_Message := sampleMsg .EVAL_MSGID

/-- A message of `Eval` from a big-endian sender. -/
def evalMsgBig : AJ_Message := { sampleMsg .EVAL_MSGID with bigEndian := true }

/-- The state in which the controller `peerA` holds session 5. -/
def heldState : State :=
  { State.init [] with consoleSession := 5, consoleBusName := "peerA" }

/-- The state `heldState` with a raw body still to be read. -/
def withRaw (raw : List RawRead) : State :=
  { heldState with raw := raw }

/-- The state in which session 5 is held and the engine has the given state. -/
def engineAt (e : EngineState) : State :=
  { heldState with engineState := e }

/-- The state after a reset: session 5 held, engine CLEAN, a raw body to read. -/
def cleanState (raw : List RawRead) : State :=
  { heldState with engineState := .ENGINE_CLEAN, raw := raw }

/-- An environment like `sampleEnv` in which `AJ_DeliverMsg` fails with code 2. -/
def deliverFailEnv : Env :=
  { sampleEnv with deliver := .fail 2 }

/-- An environment like `sampleEnv` in which `AJ_BusReplyAcceptSession` fails
with code 1. -/
def acceptFailEnv : Env :=
  { sampleEnv with replyAccept := .fail 1 }

/-- A message of `Reset`. -/
def resetMsg : AJ_Message := sampleMsg .RESET_MSGID

/-- A message of `Reboot`. -/
def rebootMsg : AJ_Message := sampleMsg .REBOOT_MSGID

/-- A host like `sampleEnv` whose `size_t` has 8 bytes. -/
def env64 : Env :=
  { sampleEnv with sizeofSizeT := 8 }

/-- A message of `Install` from a big-endian sender. -/
def installMsgBig : AJ_Message :=
  { installMsg with bigEndian := true }

/-! ## The chunk loop and the transport -/

/-- One turn of the chunk loop is one call of `AJ_UnmarshalRaw` for all the
bytes still missing: a failure ends the loop, an answer is copied to the sink
and the loop goes on with what is left. -/
theorem chunkLoop_step (env : Env) (sink : List Nat → List Event) (raw : List RawRead)
    (l : Nat) (js : List Nat) :
    chunkLoop env sink raw (l + 1) js =
      match AJ_UnmarshalRaw env raw (l + 1) with
      | (.error code, raw1) =>
        { err := some code, buf := js, remaining := l + 1, raw := raw1,
          events := [.UnmarshalRaw (l + 1)] }
      | (.ok chunk, raw1) =>
        { chunkLoop env sink raw1 (l + 1 - chunk.length) (js ++ chunk) with
          events := .UnmarshalRaw (l + 1) :: sink chunk ++
            (chunkLoop env sink raw1 (l + 1 - chunk.length) (js ++ chunk)).events } := by
  cases raw with
  | nil => simp [chunkLoop, AJ_UnmarshalRaw]
  | cons r rest =>
    cases r with
    | fail code => simp [chunkLoop, AJ_UnmarshalRaw]
    | ok data => simp [chunkLoop, AJ_UnmarshalRaw]

/-! ## Session admission -/

/-- C1: while a controller session is held, every admission request on the
console port is answered with reject (the only calls are the argument read and
`AJ_BusReplyAcceptSession(msg, FALSE)`, whose status is returned) and the
state, session id and peer address included, is left as it was. -/
theorem admission_rejected_while_held (env : Env) (msg : AJ_Message) (s : State)
    (sessionId : Nat) (joiner : String)
    (hid : msg.msgId = .AJ_METHOD_ACCEPT_SESSION)
    (hargs : msg.qus = .ok (SCRIPT_CONSOLE_PORT, sessionId, joiner))
    (hheld : s.consoleSession ≠ 0) :
    (AJS_ConsoleMsgHandler env msg s).events
        = [.UnmarshalArgs "qus", .BusReplyAcceptSession false] ∧
      (AJS_ConsoleMsgHandler env msg s).st = s ∧
      (AJS_ConsoleMsgHandler env msg s).st.consoleSession = s.consoleSession ∧
      (AJS_ConsoleMsgHandler env msg s).st.consoleBusName = s.consoleBusName ∧
      (AJS_ConsoleMsgHandler env msg s).status = env.replyAccept.toStatus := by
  simp [AJS_ConsoleMsgHandler, hid, hargs, hheld]

/-- C1, scenario A: `admit(7714, 5, "peerA")` on the initial state is accepted
and stores session 5; `admit(7714, 6, "peerB")` is then rejected and the
session id remains 5 with peer `peerA`. -/
theorem admission_rejected_while_held_witness :
    (AJS_ConsoleMsgHandler sampleEnv (admitSession 7714 5 "peerA") (State.init [])).events
        = [.UnmarshalArgs "qus", .BusReplyAcceptSession true] ∧
      (AJS_ConsoleMsgHandler sampleEnv (admitSession 7714 5 "peerA") (State.init [])).st = heldState ∧
      (AJS_ConsoleMsgHandler sampleEnv (admitSession 7714 6 "peerB") heldState).events
        = [.UnmarshalArgs "qus", .BusReplyAcceptSession false] ∧
      (AJS_ConsoleMsgHandler sampleEnv (admitSession 7714 6 "peerB") heldState).st.consoleSession = 5 ∧
      (AJS_ConsoleMsgHandler sampleEnv (admitSession 7714 6 "peerB") heldState).st.consoleBusName
        = "peerA" := by
  have h := admission_rejected_while_held sampleEnv (admitSession 7714 6 "peerB") heldState 6 "peerB"
    rfl rfl (by decide)
  exact ⟨by decide, by decide, h.1, h.2.2.1, h.2.2.2.1⟩

/-! ## Install on an engine that is not clean -/

/-- C2: an `Install` handled while the engine is RUNNING or DIRTY marshals the
reply (4, "Reset required") and delivers it, and makes no other call (no read
of the message, no script sink), returns the delivery status, which is never
the restart request, and leaves the whole state, `engineState` included, as it
was; and whenever `Install` marshals an OK reply the engine was CLEAN before. -/
theorem install_needs_reset (env : Env) (msg : AJ_Message) (s : State) :
    (s.engineState = .ENGINE_RUNNING ∨ s.engineState = .ENGINE_DIRTY →
      (Install env msg s).events
          = [.MarshalReplyMsg, .MarshalArgs 4 "Reset required", .DeliverMsg] ∧
        (Install env msg s).status = env.deliver.toStatus ∧
        (Install env msg s).status ≠ .AJ_ERR_RESTART_APP ∧
        (Install env msg s).st = s ∧
        (Install env msg s).st.engineState = s.engineState) ∧
    (∀ txt, Event.MarshalArgs SCRIPT_OK txt ∈ (Install env msg s).events →
      s.engineState = .ENGINE_CLEAN) := by
  constructor
  · intro h
    have hne : s.engineState ≠ .ENGINE_CLEAN := by
      rcases h with h | h <;> simp [h]
    have hd : env.deliver.toStatus ≠ .AJ_ERR_RESTART_APP := by
      cases env.deliver <;> simp [BusResult.toStatus]
    simp [Install, hne, SCRIPT_NEED_RESET_ERROR, hd]
  · intro txt hmem
    by_contra hne
    simp [Install, hne, SCRIPT_NEED_RESET_ERROR, SCRIPT_OK] at hmem

/-- C2, scenario C: with the engine RUNNING an `Install` is answered
(4, "Reset required") and the engine stays RUNNING. -/
theorem install_needs_reset_witness :
    (Install sampleEnv installMsg heldState).events
        = [.MarshalReplyMsg, .MarshalArgs 4 "Reset required", .DeliverMsg] ∧
      (Install sampleEnv installMsg heldState).status ≠ .AJ_ERR_RESTART_APP ∧
      (Install sampleEnv installMsg heldState).st.engineState = .ENGINE_RUNNING :=
  have h := (install_needs_reset sampleEnv installMsg heldState).1 (Or.inl rfl)
  ⟨h.1, h.2.2.1, h.2.2.2.2⟩

/-! ## Eval and the engine state -/

/-- The chunk loop of `Eval` makes transport reads only. -/
theorem chunkLoop_events_eval (env : Env) (raw : List RawRead) (l : Nat) (js : List Nat) :
    ∀ e ∈ (chunkLoop env (fun _ => []) raw l js).events, ∃ n, e = .UnmarshalRaw n := by
  induction raw generalizing l js with
  | nil =>
    cases l with
    | zero => simp [chunkLoop]
    | succ l => simp [chunkLoop]
  | cons r rest ih =>
    cases l with
    | zero => simp [chunkLoop]
    | succ l =>
      cases r with
      | fail code => simp [chunkLoop]
      | ok data =>
        intro e he
        have hev : (chunkLoop env (fun _ => []) (.ok data :: rest) (l + 1) js).events
            = .UnmarshalRaw (l + 1) ::
              (chunkLoop env (fun _ => []) rest (l + 1 - (data.take (l + 1)).length)
                (js ++ data.take (l + 1))).events := by
          simp [chunkLoop]
        rw [hev, List.mem_cons] at he
        rcases he with he | he
        · exact ⟨_, he⟩
        · exact ih _ _ e he

/-- Reading the length from the delivered bytes or from their first `n` is the same. -/
theorem declaredLen_take (env : Env) (msg : AJ_Message) (n : Nat) (raw : List Nat) :
    declaredLen env msg n (raw.take n) = declaredLen env msg n raw := by
  have h : ∀ pad : List Nat, (raw.take n ++ pad).take n = (raw ++ pad).take n := by
    intro pad
    rw [List.take_append_eq_append_take, List.take_append_eq_append_take]
    simp only [List.take_take, min_self, List.length_take]
    congr 2
    omega
  simp only [declaredLen, memcpyLen, h]

/-- C4: when the first read delivers a length field that decodes to more than
`MAX_EVAL_LEN` = 1024, `Eval` marshals the reply (3, "Eval expression too
long") and delivers it; its only other call is the 4-byte read of the length
(no allocation, no further read, no compile, no run) and the state is
unchanged apart from the consumed read. A length of at most 1024, so 1024
itself, goes on to the allocation instead. -/
theorem eval_too_long (env : Env) (msg : AJ_Message) (s : State) (data : List Nat)
    (rest : List RawRead) (hraw : s.raw = .ok data :: rest) :
    (declaredLen env msg 4 data > 1024 →
      (Eval env msg s).events = [.UnmarshalRaw 4, .MarshalReplyMsg,
          .MarshalArgs 3 "Eval expression too long", .DeliverMsg] ∧
        (Eval env msg s).st = { s with raw := rest } ∧
        (∀ n, Event.Malloc n ∉ (Eval env msg s).events) ∧
        (∀ src r, Event.Compile src r ∉ (Eval env msg s).events) ∧
        (∀ r, Event.Pcall r ∉ (Eval env msg s).events) ∧
        (Eval env msg s).status = env.deliver.toStatus) ∧
    (declaredLen env msg 4 data ≤ 1024 →
      (Eval env msg s).events.take 2
        = [.UnmarshalRaw 4, .Malloc (declaredLen env msg 4 data)]) := by
  have hread : AJ_UnmarshalRaw env s.raw 4 = (.ok (data.take 4), rest) := by
    simp [hraw, AJ_UnmarshalRaw]
  constructor
  · intro hlen
    have hgt : declaredLen env msg 4 (data.take 4) > MAX_EVAL_LEN := by
      rw [declaredLen_take]; exact hlen
    simp [Eval, hread, hgt, EvalReply, replyStatusOf, SCRIPT_RESOURCE_ERROR]
  · intro hlen
    have hle : ¬ declaredLen env msg 4 (data.take 4) > MAX_EVAL_LEN := by
      rw [declaredLen_take]; simpa [MAX_EVAL_LEN] using hlen
    unfold Eval
    rw [hread]
    simp only [hle, if_false]
    rw [declaredLen_take]
    by_cases hm : env.malloc (declaredLen env msg 4 data) = true
    · simp only [hm, Bool.not_true, Bool.false_eq_true, if_false]
      cases (chunkLoop env (fun _ => []) rest (declaredLen env msg 4 data) []).err with
      | some code => simp [ErrorReply]
      | none =>
        simp only []
        split <;> simp
    · simp [hm, ErrorReply]

/-- C4, scenario D and the boundary: declared lengths 2000 (little-endian
sender) and 1025 (big-endian sender, byte-swapped) are answered
(3, "Eval expression too long") right after the length read; 1024 is not. -/
theorem eval_too_long_witness :
    declaredLen sampleEnv evalMsg 4 [208, 7, 0, 0] = 2000 ∧
      (Eval sampleEnv evalMsg (withRaw [.ok [208, 7, 0, 0], .ok [49]])).events
        = [.UnmarshalRaw 4, .MarshalReplyMsg,
           .MarshalArgs 3 "Eval expression too long", .DeliverMsg] ∧
      declaredLen sampleEnv evalMsgBig 4 [0, 0, 4, 1] = 1025 ∧
      (Eval sampleEnv evalMsgBig (withRaw [.ok [0, 0, 4, 1], .ok [49]])).events
        = [.UnmarshalRaw 4, .MarshalReplyMsg,
           .MarshalArgs 3 "Eval expression too long", .DeliverMsg] ∧
      (Eval sampleEnv evalMsg (withRaw [.ok [0, 4, 0, 0], .ok [49]])).events.take 2
        = [.UnmarshalRaw 4, .Malloc 1024] :=
  ⟨by decide,
   ((eval_too_long sampleEnv evalMsg (withRaw [.ok [208, 7, 0, 0], .ok [49]])
      [208, 7, 0, 0] [.ok [49]] rfl).1 (by decide)).1,
   by decide,
   ((eval_too_long sampleEnv evalMsgBig (withRaw [.ok [0, 0, 4, 1], .ok [49]])
      [0, 0, 4, 1] [.ok [49]] rfl).1 (by decide)).1,
   (eval_too_long sampleEnv evalMsg (withRaw [.ok [0, 4, 0, 0], .ok [49]])
      [0, 4, 0, 0] [.ok [49]] rfl).2 (by decide)⟩

/-! ## EvalReply -/

/-- C5: `EvalReply` writes OK (0) for success, SYNTAX_ERROR (1) for a syntax
error, RESOURCE_ERROR (3) for an allocation error and INTERNAL_ERROR (5) for
an unnamed outcome, but for a type error (and likewise an eval or range
error) it writes whatever the unassigned local `replyStatus` holds: 7 in
`sampleEnv`, 0 (the OK code) when the stale content is 0, never by assignment
EVAL_ERROR (2). -/
theorem evalReply_status_unassigned :
    (EvalReply sampleEnv { heldState with stack := ["TypeError"] } .DUK_RET_TYPE_ERROR).events
        = [.MarshalReplyMsg, .MarshalArgs 7 "TypeError", .DeliverMsg] ∧
      (EvalReply { sampleEnv with uninit := 0 } { heldState with stack := ["TypeError"] }
          .DUK_RET_TYPE_ERROR).events
        = [.MarshalReplyMsg, .MarshalArgs SCRIPT_OK "TypeError", .DeliverMsg] ∧
      (∀ env : Env, replyStatusOf env.uninit .DUK_RET_EVAL_ERROR = env.uninit % 256 ∧
        replyStatusOf env.uninit .DUK_RET_TYPE_ERROR = env.uninit % 256 ∧
        replyStatusOf env.uninit .DUK_RET_RANGE_ERROR = env.uninit % 256) ∧
      (∀ env : Env, replyStatusOf env.uninit .DUK_EXEC_SUCCESS = 0 ∧
        replyStatusOf env.uninit .DUK_RET_SYNTAX_ERROR = 1 ∧
        replyStatusOf env.uninit .DUK_RET_ALLOC_ERROR = 3 ∧
        ∀ code, replyStatusOf env.uninit (.other code) = 5) :=
  ⟨by decide, by decide, fun _ => ⟨rfl, rfl, rfl⟩, fun _ => ⟨rfl, rfl, rfl, fun _ => rfl⟩⟩

/-! ## Eval: reassembly -/

/-- A chunk loop that is handed non-empty chunks whose sizes sum to the
declared length reads exactly those chunks and appends them in order. -/
theorem chunkLoop_chunks (env : Env) (sink : List Nat → List Event) (rest : List RawRead) :
    ∀ (chunks : List (List Nat)) (js : List Nat), (∀ c ∈ chunks, 1 ≤ c.length) →
      chunkLoop env sink (chunks.map .ok ++ rest) (chunks.map List.length).sum js
        = { err := none, buf := js ++ chunks.flatten, remaining := 0, raw := rest,
            events := expectedReads sink chunks } := by
  intro chunks
  induction chunks with
  | nil => intro js _; simp [chunkLoop, expectedReads]
  | cons c cs ih =>
    intro js hne
    have hc : 1 ≤ c.length := hne c (List.mem_cons_self _ _)
    obtain ⟨l, hl⟩ : ∃ l, ((c :: cs).map List.length).sum = l + 1 := by
      refine ⟨c.length - 1 + (cs.map List.length).sum, ?_⟩
      simp only [List.map_cons, List.sum_cons]
      omega
    have htake : c.take (l + 1) = c := by
      apply List.take_of_length_le
      simp only [List.map_cons, List.sum_cons] at hl
      omega
    have hrem : l + 1 - c.length = (cs.map List.length).sum := by
      simp only [List.map_cons, List.sum_cons] at hl
      omega
    have ih2 := ih (js ++ c) (fun x hx => hne x (List.mem_cons_of_mem _ hx))
    rw [hl]
    simp only [List.map_cons, List.cons_append, chunkLoop, htake, hrem]
    have ih3 : chunkLoop env sink ((List.map RawRead.ok cs).append rest)
        (cs.map List.length).sum (js ++ c)
        = { err := none, buf := js ++ c ++ cs.flatten, remaining := 0, raw := rest,
            events := expectedReads sink cs } := ih2
    rw [ih3]
    simp only [List.map_cons, List.sum_cons] at hl
    simp [expectedReads, hl]

/-- The reads of the `Eval` loop on well-formed chunks ask for strictly fewer
bytes each time, down to zero. -/
theorem requested_chain (cs : List (List Nat)) :
    ∀ n, (∀ c ∈ cs, 1 ≤ c.length) → (cs.map List.length).sum < n →
      List.Chain (· > ·) n (requested (expectedReads (fun _ => []) cs) ++ [0]) := by
  induction cs with
  | nil =>
    intro n _ hn
    simp only [expectedReads, requested, List.nil_append, List.chain_cons, List.Chain.nil,
      and_true]
    simpa using hn
  | cons c cs ih =>
    intro n hne hn
    have hc : 1 ≤ c.length := hne c (List.mem_cons_self _ _)
    simp only [expectedReads, requested, List.nil_append, List.cons_append, List.chain_cons]
    refine ⟨hn, ih _ (fun x hx => hne x (List.mem_cons_of_mem _ hx)) ?_⟩
    simp only [List.map_cons, List.sum_cons]
    omega

/-- The `Eval` loop makes one read per chunk. -/
theorem requested_length (cs : List (List Nat)) :
    (requested (expectedReads (fun _ => []) cs)).length = cs.length := by
  induction cs with
  | nil => rfl
  | cons c cs ih => simp [expectedReads, requested, ih]

/-- C6: for a declared length `L ≤ 1024` and successful reads that return the
non-empty chunks `chunks` whose sizes sum to `L`, the reassembly loop of `Eval`
ends without failure after exactly one read per chunk, leaving later answers
of the transport unread; the byte counter strictly decreases from read to read
and ends at 0; the buffer is the in-order concatenation of the chunks, of
length exactly `L`, whatever the split; and `Eval` as a whole allocates `L`
bytes, makes these reads and compiles the stripped buffer. -/
theorem eval_reassembly (env : Env) (chunks : List (List Nat)) (rest : List RawRead) (L : Nat)
    (hL : L ≤ MAX_EVAL_LEN) (hne : ∀ c ∈ chunks, 1 ≤ c.length)
    (hsum : (chunks.map List.length).sum = L) :
    (chunkLoop env (fun _ => []) (chunks.map .ok ++ rest) L []).err = none ∧
    (chunkLoop env (fun _ => []) (chunks.map .ok ++ rest) L []).raw = rest ∧
    (chunkLoop env (fun _ => []) (chunks.map .ok ++ rest) L []).remaining = 0 ∧
    (chunkLoop env (fun _ => []) (chunks.map .ok ++ rest) L []).buf = chunks.flatten ∧
    (chunkLoop env (fun _ => []) (chunks.map .ok ++ rest) L []).buf.length = L ∧
    (requested (chunkLoop env (fun _ => []) (chunks.map .ok ++ rest) L []).events).length
      = chunks.length ∧
    List.Chain' (· > ·)
      (requested (chunkLoop env (fun _ => []) (chunks.map .ok ++ rest) L []).events
        ++ [(chunkLoop env (fun _ => []) (chunks.map .ok ++ rest) L []).remaining]) ∧
    (∀ (chunks2 : List (List Nat)) (rest2 : List RawRead), (∀ c ∈ chunks2, 1 ≤ c.length) →
      chunks2.flatten = chunks.flatten →
      (chunkLoop env (fun _ => []) (chunks2.map .ok ++ rest2) L []).buf
        = (chunkLoop env (fun _ => []) (chunks.map .ok ++ rest) L []).buf) ∧
    (∀ (msg : AJ_Message) (s : State) (data : List Nat),
      s.raw = .ok data :: (chunks.map .ok ++ rest) → declaredLen env msg 4 data = L →
      env.malloc L = true →
      (Eval env msg s).st.raw = rest ∧
      ∃ tail, (Eval env msg s).events
        = .UnmarshalRaw 4 :: .Malloc L :: expectedReads (fun _ => []) chunks ++
          .Compile (evalSource chunks.flatten L) (env.compile (evalSource chunks.flatten L)).1
            :: .Free :: tail) := by
  have hlen : chunks.flatten.length = L := by
    rw [List.length_flatten]; exact hsum
  have hloop := chunkLoop_chunks env (fun _ => []) rest chunks [] hne
  rw [hsum] at hloop
  rw [hloop]
  simp only [List.nil_append, true_and]
  refine ⟨hlen, requested_length chunks, ?_, ?_, ?_⟩
  · cases chunks with
    | nil => simp [expectedReads, requested]
    | cons c cs =>
      have hc : 1 ≤ c.length := hne c (List.mem_cons_self _ _)
      simp only [expectedReads, requested, List.nil_append, List.cons_append]
      have h := requested_chain cs ((List.map List.length (c :: cs)).sum)
        (fun x hx => hne x (List.mem_cons_of_mem _ hx))
        (by simp only [List.map_cons, List.sum_cons]; omega)
      exact h
  · intro chunks2 rest2 hne2 hflat
    have hsum2 : (chunks2.map List.length).sum = L := by
      rw [← List.length_flatten, hflat]; exact hlen
    have hloop2 := chunkLoop_chunks env (fun _ => []) rest2 chunks2 [] hne2
    rw [hsum2] at hloop2
    rw [hloop2]
    simpa using hflat
  · intro msg s data hraw hdecl hm
    have hread : AJ_UnmarshalRaw env s.raw 4 = (.ok (data.take 4), chunks.map .ok ++ rest) := by
      simp [hraw, AJ_UnmarshalRaw]
    have hd : declaredLen env msg 4 (data.take 4) = L := by
      rw [declaredLen_take]; exact hdecl
    have hle : ¬ L > MAX_EVAL_LEN := by omega
    unfold Eval
    rw [hread]
    simp only [hd, hle, if_false, hm, Bool.not_true, Bool.false_eq_true, hloop]
    split_ifs <;> simp [EvalReply]

/-- C6 on a concrete transfer: the 3 bytes of `1+1` arrive as a 1-byte and a
2-byte chunk; the loop makes two reads asking for 3 and then 2 bytes, leaves
the next answer unread, and builds the same buffer as for the split 2 + 1. -/
theorem eval_reassembly_witness :
    (chunkLoop sampleEnv (fun _ => []) [.ok [49], .ok [43, 49], .ok [9]] 3 []).buf
        = [49, 43, 49] ∧
      (chunkLoop sampleEnv (fun _ => []) [.ok [49], .ok [43, 49], .ok [9]] 3 []).raw
        = [.ok [9]] ∧
      requested (chunkLoop sampleEnv (fun _ => []) [.ok [49], .ok [43, 49], .ok [9]] 3 []).events
        = [3, 2] ∧
      (chunkLoop sampleEnv (fun _ => []) [.ok [49, 43], .ok [49]] 3 []).buf
        = (chunkLoop sampleEnv (fun _ => []) [.ok [49], .ok [43, 49], .ok [9]] 3 []).buf :=
  have h := eval_reassembly sampleEnv [[49], [43, 49]] [.ok [9]] 3 (by decide) (by decide) rfl
  ⟨h.2.2.2.1, h.2.1, by decide,
   h.2.2.2.2.2.2.2.1 [[49, 43], [49]] [] (by decide) rfl⟩

/-! ## Eval: stripping of trailing NULs -/

/-- A chunk loop that ends without failure has filled the buffer to the end. -/
theorem chunkLoop_buf_length (env : Env) (sink : List Nat → List Event) (raw : List RawRead) :
    ∀ (l : Nat) (js : List Nat), (chunkLoop env sink raw l js).err = none →
      (chunkLoop env sink raw l js).buf.length = js.length + l := by
  induction raw with
  | nil =>
    intro l js h
    cases l with
    | zero => simp [chunkLoop]
    | succ l => simp [chunkLoop] at h
  | cons r rest ih =>
    intro l js h
    cases l with
    | zero => simp [chunkLoop]
    | succ l =>
      cases r with
      | fail code => simp [chunkLoop] at h
      | ok data =>
        simp only [chunkLoop] at h ⊢
        rw [ih _ _ h]
        simp only [List.length_append, List.length_take]
        omega

/-- The stripping loop never lengthens. -/
theorem stripNuls_le (js : List Nat) (len : Nat) : stripNuls js len ≤ len := by
  induction len with
  | zero => simp [stripNuls]
  | succ n ih =>
    simp only [stripNuls]
    split
    · omega
    · exact le_rfl

/-- Every byte the stripping loop drops is zero. -/
theorem stripNuls_zero_after (js : List Nat) (len : Nat) :
    ∀ i, stripNuls js len ≤ i → i < len → js.getD i 0 = 0 := by
  induction len with
  | zero => intro i _ h; omega
  | succ n ih =>
    intro i h1 h2
    simp only [stripNuls] at h1
    split at h1
    · rename_i hz
      by_cases hi : i = n
      · rw [hi]; exact hz
      · exact ih i h1 (by omega)
    · omega

/-- The stripping loop stops at length zero or below a non-zero byte. -/
theorem stripNuls_last (js : List Nat) (len : Nat) :
    stripNuls js len = 0 ∨ js.getD (stripNuls js len - 1) 0 ≠ 0 := by
  induction len with
  | zero => left; rfl
  | succ n ih =>
    simp only [stripNuls]
    split
    · exact ih
    · rename_i hz
      right
      simpa using hz

/-- C7: the source `Eval` hands to the engine for a reassembled buffer `b` is
`b` without its trailing zero bytes: `b` is the source followed by zeros only,
the source is empty or ends in a non-zero byte, every byte up to and including
a non-zero byte of `b` is kept in place (so zeros followed by a non-zero byte
stay), and an empty or all-zero buffer gives the empty source; and whatever
`Eval` compiles is such a stripped buffer of at most 1024 bytes. -/
theorem evalSource_strips_trailing_nuls (b : List Nat) :
    (∃ k, b = evalSource b b.length ++ List.replicate k 0) ∧
    (∀ h : evalSource b b.length ≠ [], (evalSource b b.length).getLast h ≠ 0) ∧
    (∀ i j, i ≤ j → j < b.length → b.getD j 0 ≠ 0 →
      i < (evalSource b b.length).length ∧ (evalSource b b.length).getD i 0 = b.getD i 0) ∧
    ((∀ x ∈ b, x = 0) → evalSource b b.length = []) ∧
    (∀ (env : Env) (msg : AJ_Message) (s : State) (src : List Nat) (r : DukRet),
      Event.Compile src r ∈ (Eval env msg s).events →
      ∃ js : List Nat, js.length ≤ MAX_EVAL_LEN ∧ src = evalSource js js.length) := by
  have hmain : (∃ k, b = evalSource b b.length ++ List.replicate k 0) ∧
      (∀ h : evalSource b b.length ≠ [], (evalSource b b.length).getLast h ≠ 0) ∧
      (∀ i j, i ≤ j → j < b.length → b.getD j 0 ≠ 0 →
        i < (evalSource b b.length).length ∧
          (evalSource b b.length).getD i 0 = b.getD i 0) ∧
      ((∀ x ∈ b, x = 0) → evalSource b b.length = []) := by
    have hle := stripNuls_le b b.length
    have hz := stripNuls_zero_after b b.length
    have hlast := stripNuls_last b b.length
    have hlen : (evalSource b b.length).length = stripNuls b b.length := by
      simp [evalSource, hle]
    refine ⟨⟨b.length - stripNuls b b.length, ?_⟩, ?_, ?_, ?_⟩
    · have hd : b.drop (stripNuls b b.length)
          = List.replicate (b.length - stripNuls b b.length) 0 := by
        rw [List.eq_replicate_iff]
        refine ⟨by simp, ?_⟩
        intro x hx
        obtain ⟨i, hi, rfl⟩ := List.getElem_of_mem hx
        simp only [List.length_drop] at hi
        have := hz (stripNuls b b.length + i) (by omega) (by omega)
        have hlt : stripNuls b b.length + i < b.length := by omega
        simpa [List.getD_eq_getElem?_getD, List.getElem?_eq_getElem, hlt] using this
      conv_lhs => rw [← List.take_append_drop (stripNuls b b.length) b]
      rw [hd]; rfl
    · intro h
      have hpos : 0 < stripNuls b b.length := by
        rw [← hlen]; exact List.length_pos.mpr h
      rcases hlast with h0 | hnz
      · omega
      · intro hcontra
        apply hnz
        have hlt : stripNuls b b.length - 1 < b.length := by omega
        rw [List.getLast_eq_getElem] at hcontra
        simp only [evalSource, List.getElem_take] at hcontra
        simp only [List.length_take, min_eq_left hle] at hcontra
        simpa [List.getD_eq_getElem?_getD, List.getElem?_eq_getElem, hlt] using hcontra
    · intro i j hij hj hnz
      have hjn : j < stripNuls b b.length := by
        by_contra hcon
        exact hnz (hz j (by omega) hj)
      refine ⟨by omega, ?_⟩
      simp only [evalSource, List.getD_eq_getElem?_getD, List.getElem?_take]
      rw [if_pos (by omega)]
    · intro hall
      rcases hlast with h0 | hnz
      · simp [evalSource, h0]
      · exfalso
        apply hnz
        have hlt : stripNuls b b.length - 1 < b.length := by
          rcases Nat.eq_zero_or_pos (stripNuls b b.length) with h | h
          · rcases Nat.eq_zero_or_pos b.length with hb | hb
            · rw [List.length_eq_zero] at hb
              simp [hb, stripNuls] at hnz
            · omega
          · omega
        rw [List.getD_eq_getElem?_getD, List.getElem?_eq_getElem hlt]
        exact hall _ (List.getElem_mem _)

  refine ⟨hmain.1, hmain.2.1, hmain.2.2.1, hmain.2.2.2, ?_⟩
  intro env msg s src r
  unfold Eval
  rcases hread : AJ_UnmarshalRaw env s.raw 4 with ⟨res, raw1⟩
  cases res with
  | error code => simp [ErrorReply]
  | ok hdr =>
    simp only []
    by_cases hlen : declaredLen env msg 4 hdr > MAX_EVAL_LEN
    · simp [hlen, EvalReply]
    · by_cases hm : env.malloc (declaredLen env msg 4 hdr) = true
      · simp only [hlen, hm, if_false, Bool.not_true, Bool.false_eq_true]
        have hloop := chunkLoop_events_eval env raw1 (declaredLen env msg 4 hdr) []
        have hbuf := chunkLoop_buf_length env (fun _ => []) raw1 (declaredLen env msg 4 hdr) []
        cases herr : (chunkLoop env (fun _ => []) raw1 (declaredLen env msg 4 hdr) []).err with
        | some code =>
          simp only [ErrorReply]
          intro h
          simp at h
          obtain ⟨n, hn⟩ := hloop _ h
          cases hn
        | none =>
          have hb := hbuf herr
          simp only [List.length_nil, Nat.zero_add] at hb
          have key : src = evalSource
              (chunkLoop env (fun _ => []) raw1 (declaredLen env msg 4 hdr) []).buf
              (declaredLen env msg 4 hdr) →
              ∃ js : List Nat, js.length ≤ MAX_EVAL_LEN ∧ src = evalSource js js.length := by
            intro h
            refine ⟨(chunkLoop env (fun _ => []) raw1 (declaredLen env msg 4 hdr) []).buf, ?_, ?_⟩
            · rw [hb]; omega
            · rw [hb]; exact h
          simp only []
          split_ifs
          · intro h
            simp [EvalReply] at h
            rcases h with h | h
            · obtain ⟨n, hn⟩ := hloop _ h
              cases hn
            · exact key h.1
          · intro h
            simp [EvalReply] at h
            rcases h with h | h
            · obtain ⟨n, hn⟩ := hloop _ h
              cases hn
            · exact key h.1
          · intro h
            simp [EvalReply] at h
            rcases h with h | h
            · obtain ⟨n, hn⟩ := hloop _ h
              cases hn
            · exact key h.1
      · simp [hlen, hm, ErrorReply]

/-- C7 on concrete buffers: `[49, 0, 50, 0, 0]` is cut to `[49, 0, 50]`, the
inner zero staying in place, and an all-zero buffer gives the empty source. -/
theorem evalSource_strips_trailing_nuls_witness :
    evalSource [49, 0, 50, 0, 0] 5 = [49, 0, 50] ∧
      (1 < (evalSource [49, 0, 50, 0, 0] 5).length ∧
        (evalSource [49, 0, 50, 0, 0] 5).getD 1 0 = 0) ∧
      evalSource [0, 0] 2 = [] :=
  ⟨by decide,
   (evalSource_strips_trailing_nuls [49, 0, 50, 0, 0]).2.2.1 1 2 (by decide) (by decide)
     (by decide),
   (evalSource_strips_trailing_nuls [0, 0]).2.2.2.1 (by decide)⟩

/-! ## Session loss -/

/-- C8 as stated fails: with session 5 held, a session-lost notification for
session 9 whose `AJ_ResetArgs` fails is not reported as unmatched; the handler
returns the failure of the reset. -/
theorem session_lost_reset_failure :
    (AJS_ConsoleMsgHandler sampleEnv { sessionLost 9 with resetArgs := .fail 1 } heldState).status
        = .AJ_ERR_BUS 1 ∧
      (AJS_ConsoleMsgHandler sampleEnv { sessionLost 9 with resetArgs := .fail 1 }
        heldState).status ≠ .AJ_ERR_NO_MATCH := by
  decide

/-- C8, amended: while a session `s ≠ 0` is held, a session-lost notification
carrying the held id clears the session and returns `AJ_OK`; one carrying any
other id leaves the whole state unchanged and calls `AJ_ResetArgs`, and the
handler returns `AJ_ERR_NO_MATCH` when the reset succeeds and the failure of
the reset otherwise. -/
theorem session_lost (env : Env) (msg : AJ_Message) (s : State) (sessionId : Nat)
    (hid : msg.msgId = .AJ_SIGNAL_SESSION_LOST_WITH_REASON) (hargs : msg.u = .ok sessionId)
    (hheld : s.consoleSession ≠ 0) :
    (sessionId = s.consoleSession →
      (AJS_ConsoleMsgHandler env msg s).st = { s with consoleSession := 0 } ∧
        (AJS_ConsoleMsgHandler env msg s).st.consoleSession = 0 ∧
        (AJS_ConsoleMsgHandler env msg s).status = .AJ_OK ∧
        (AJS_ConsoleMsgHandler env msg s).events = [.UnmarshalArgs "u"]) ∧
    (sessionId ≠ s.consoleSession →
      (AJS_ConsoleMsgHandler env msg s).st = s ∧
        (AJS_ConsoleMsgHandler env msg s).events = [.UnmarshalArgs "u", .ResetArgs] ∧
        (msg.resetArgs = .ok → (AJS_ConsoleMsgHandler env msg s).status = .AJ_ERR_NO_MATCH) ∧
        (∀ code, msg.resetArgs = .fail code →
          (AJS_ConsoleMsgHandler env msg s).status = .AJ_ERR_BUS code)) := by
  constructor
  · intro h
    simp [AJS_ConsoleMsgHandler, hid, hargs, hheld, h]
  · intro h
    refine ⟨?_, ?_, ?_, ?_⟩
    · simp [AJS_ConsoleMsgHandler, hid, hargs, hheld, h]
    · simp [AJS_ConsoleMsgHandler, hid, hargs, hheld, h]
    · intro hr
      simp [AJS_ConsoleMsgHandler, hid, hargs, hheld, h, hr]
    · intro code hr
      simp [AJS_ConsoleMsgHandler, hid, hargs, hheld, h, hr, BusResult.toStatus]

/-- C8, scenario E: with session 5 held, the notification for 5 clears the
session; the notification for 9, its arguments reset, is unmatched and the
session stays 5. -/
theorem session_lost_witness :
    (AJS_ConsoleMsgHandler sampleEnv (sessionLost 5) heldState).st.consoleSession = 0 ∧
      (AJS_ConsoleMsgHandler sampleEnv (sessionLost 5) heldState).status = .AJ_OK ∧
      (AJS_ConsoleMsgHandler sampleEnv (sessionLost 9) heldState).status = .AJ_ERR_NO_MATCH ∧
      (AJS_ConsoleMsgHandler sampleEnv (sessionLost 9) heldState).st.consoleSession = 5 :=
  have h5 := (session_lost sampleEnv (sessionLost 5) heldState 5 rfl rfl (by decide)).1 rfl
  have h9 := (session_lost sampleEnv (sessionLost 9) heldState 9 rfl rfl (by decide)).2
    (by decide)
  ⟨h5.2.1, h5.2.2.1, h9.2.2.1 rfl, by rw [h9.1]; rfl⟩

/-! ## No session held -/

/-- C9: with no session held, every message other than the session admission
request is returned as unmatched (`AJ_ERR_NO_MATCH`) with no call made at all
(no argument read, no reply, no engine, storage or reboot call) and the state,
session and engine state included, unchanged. -/
theorem no_session_unmatched (env : Env) (msg : AJ_Message) (s : State)
    (hnone : s.consoleSession = 0) (hid : msg.msgId ≠ .AJ_METHOD_ACCEPT_SESSION) :
    (AJS_ConsoleMsgHandler env msg s).status = .AJ_ERR_NO_MATCH ∧
      (AJS_ConsoleMsgHandler env msg s).events = [] ∧
      (AJS_ConsoleMsgHandler env msg s).st = s ∧
      (AJS_ConsoleMsgHandler env msg s).st.consoleSession = s.consoleSession ∧
      (AJS_ConsoleMsgHandler env msg s).st.consoleBusName = s.consoleBusName ∧
      (AJS_ConsoleMsgHandler env msg s).st.engineState = s.engineState := by
  simp [AJS_ConsoleMsgHandler, hid, hnone]

/-- C9 on concrete messages: in the initial state (no session) an `Install`,
an `Eval` with a body, a `Reboot` and an unknown identifier are all unmatched
and nothing is called. -/
theorem no_session_unmatched_witness :
    (AJS_ConsoleMsgHandler sampleEnv installMsg (State.init [])).status = .AJ_ERR_NO_MATCH ∧
      (AJS_ConsoleMsgHandler sampleEnv evalMsg
        (State.init [.ok [1, 0, 0, 0], .ok [49]])).events = [] ∧
      (AJS_ConsoleMsgHandler sampleEnv (sampleMsg .REBOOT_MSGID) (State.init [])).events = [] ∧
      (AJS_ConsoleMsgHandler sampleEnv (sampleMsg (.other 99)) (State.init [])).st
        = State.init [] :=
  ⟨(no_session_unmatched sampleEnv installMsg (State.init []) rfl (by decide)).1,
   (no_session_unmatched sampleEnv evalMsg (State.init [.ok [1, 0, 0, 0], .ok [49]]) rfl
     (by decide)).2.1,
   (no_session_unmatched sampleEnv (sampleMsg .REBOOT_MSGID) (State.init []) rfl
     (by decide)).2.1,
   (no_session_unmatched sampleEnv (sampleMsg (.other 99)) (State.init []) rfl
     (by decide)).2.2.1⟩

/-! ## Admission requests for another port -/

/-- C10 as stated fails: an admission request for port 80 whose
`AJ_ResetArgs` fails is not reported as unmatched; the handler returns the
failure of the reset. -/
theorem admission_other_port_reset_failure :
    (AJS_ConsoleMsgHandler sampleEnv { admitSession 80 6 "peerB" with resetArgs := .fail 1 }
        heldState).status = .AJ_ERR_BUS 1 ∧
      (AJS_ConsoleMsgHandler sampleEnv { admitSession 80 6 "peerB" with resetArgs := .fail 1 }
        heldState).status ≠ .AJ_ERR_NO_MATCH := by
  decide

/-- C10, amended: for every admission request whose port is not 7714, with or
without a session held, the handler leaves the whole state (session id and
peer address included) unchanged, makes no `AJ_BusReplyAcceptSession` call,
calls `AJ_ResetArgs`, and returns `AJ_ERR_NO_MATCH` when the reset succeeds
and the failure of the reset otherwise. -/
theorem admission_other_port (env : Env) (msg : AJ_Message) (s : State)
    (port sessionId : Nat) (joiner : String)
    (hid : msg.msgId = .AJ_METHOD_ACCEPT_SESSION)
    (hargs : msg.qus = .ok (port, sessionId, joiner))
    (hport : port ≠ SCRIPT_CONSOLE_PORT) :
    (AJS_ConsoleMsgHandler env msg s).st = s ∧
      (AJS_ConsoleMsgHandler env msg s).st.consoleSession = s.consoleSession ∧
      (AJS_ConsoleMsgHandler env msg s).st.consoleBusName = s.consoleBusName ∧
      (AJS_ConsoleMsgHandler env msg s).events = [.UnmarshalArgs "qus", .ResetArgs] ∧
      (∀ accept, Event.BusReplyAcceptSession accept ∉ (AJS_ConsoleMsgHandler env msg s).events) ∧
      (msg.resetArgs = .ok → (AJS_ConsoleMsgHandler env msg s).status = .AJ_ERR_NO_MATCH) ∧
      (∀ code, msg.resetArgs = .fail code →
        (AJS_ConsoleMsgHandler env msg s).status = .AJ_ERR_BUS code) := by
  refine ⟨?_, ?_, ?_, ?_, ?_, ?_, ?_⟩
  · simp [AJS_ConsoleMsgHandler, hid, hargs, hport]
  · simp [AJS_ConsoleMsgHandler, hid, hargs, hport]
  · simp [AJS_ConsoleMsgHandler, hid, hargs, hport]
  · simp [AJS_ConsoleMsgHandler, hid, hargs, hport]
  · simp [AJS_ConsoleMsgHandler, hid, hargs, hport]
  · intro hr
    simp [AJS_ConsoleMsgHandler, hid, hargs, hport, hr]
  · intro code hr
    simp [AJS_ConsoleMsgHandler, hid, hargs, hport, hr, BusResult.toStatus]

/-- C10 on concrete requests: an admission request for port 80 is unmatched,
with the arguments reset, both when no session is held and when session 5 is
held, and the session is as before. -/
theorem admission_other_port_witness :
    (AJS_ConsoleMsgHandler sampleEnv (admitSession 80 6 "peerB") (State.init [])).status
        = .AJ_ERR_NO_MATCH ∧
      (AJS_ConsoleMsgHandler sampleEnv (admitSession 80 6 "peerB") (State.init [])).st.consoleSession
        = 0 ∧
      (AJS_ConsoleMsgHandler sampleEnv (admitSession 80 6 "peerB") heldState).status
        = .AJ_ERR_NO_MATCH ∧
      (AJS_ConsoleMsgHandler sampleEnv (admitSession 80 6 "peerB") heldState).st = heldState :=
  have h0 := admission_other_port sampleEnv (admitSession 80 6 "peerB") (State.init []) 80 6 "peerB"
    rfl rfl (by decide)
  have h5 := admission_other_port sampleEnv (admitSession 80 6 "peerB") heldState 80 6 "peerB"
    rfl rfl (by decide)
  ⟨h0.2.2.2.2.2.1 rfl, h0.2.1, h5.2.2.2.2.2.1 rfl, h5.1⟩

/-! ## Reset -/

/-- C11: with a session held, a `Reset` request from any engine state marshals
the empty method reply and delivers it, and makes no other call; when the
delivery succeeds the engine state is CLEAN afterwards and the handler returns
`AJ_ERR_RESTART_APP`; when the delivery fails the whole state, engine state
included, is unchanged and the handler returns the failure, which is not the
restart request. -/
theorem reset_request (env : Env) (msg : AJ_Message) (s : State)
    (hid : msg.msgId = .RESET_MSGID) (hheld : s.consoleSession ≠ 0) :
    (AJS_ConsoleMsgHandler env msg s).events = [.MarshalReplyMsg, .DeliverMsg] ∧
    (env.deliver = .ok →
      (AJS_ConsoleMsgHandler env msg s).st.engineState = .ENGINE_CLEAN ∧
        (AJS_ConsoleMsgHandler env msg s).st = { s with engineState := .ENGINE_CLEAN } ∧
        (AJS_ConsoleMsgHandler env msg s).status = .AJ_ERR_RESTART_APP) ∧
    (∀ code, env.deliver = .fail code →
      (AJS_ConsoleMsgHandler env msg s).st = s ∧
        (AJS_ConsoleMsgHandler env msg s).st.engineState = s.engineState ∧
        (AJS_ConsoleMsgHandler env msg s).status = .AJ_ERR_BUS code ∧
        (AJS_ConsoleMsgHandler env msg s).status ≠ .AJ_ERR_RESTART_APP) := by
  have hne : msg.msgId ≠ .AJ_METHOD_ACCEPT_SESSION := by rw [hid]; decide
  refine ⟨?_, ?_, ?_⟩
  · cases hd : env.deliver <;> simp [AJS_ConsoleMsgHandler, hid, hheld, Reset, hd]
  · intro hd
    simp [AJS_ConsoleMsgHandler, hid, hheld, Reset, hd]
  · intro code hd
    simp [AJS_ConsoleMsgHandler, hid, hheld, Reset, hd]

/-- C11 on concrete requests: with session 5 held, a delivered `Reset` takes
the engine from RUNNING, from CLEAN and from DIRTY to CLEAN and asks for the
restart; with a failing delivery the engine stays DIRTY and no restart is
asked for. -/
theorem reset_request_witness :
    (AJS_ConsoleMsgHandler sampleEnv resetMsg (engineAt .ENGINE_RUNNING)).st.engineState
        = .ENGINE_CLEAN ∧
      (AJS_ConsoleMsgHandler sampleEnv resetMsg (engineAt .ENGINE_CLEAN)).st.engineState
        = .ENGINE_CLEAN ∧
      (AJS_ConsoleMsgHandler sampleEnv resetMsg (engineAt .ENGINE_DIRTY)).st.engineState
        = .ENGINE_CLEAN ∧
      (AJS_ConsoleMsgHandler sampleEnv resetMsg (engineAt .ENGINE_DIRTY)).status
        = .AJ_ERR_RESTART_APP ∧
      (AJS_ConsoleMsgHandler deliverFailEnv resetMsg (engineAt .ENGINE_DIRTY)).st.engineState
        = .ENGINE_DIRTY ∧
      (AJS_ConsoleMsgHandler deliverFailEnv resetMsg (engineAt .ENGINE_DIRTY)).status
        = .AJ_ERR_BUS 2 :=
  have hr := (reset_request sampleEnv resetMsg (engineAt .ENGINE_RUNNING) rfl (by decide)).2.1 rfl
  have hc := (reset_request sampleEnv resetMsg (engineAt .ENGINE_CLEAN) rfl (by decide)).2.1 rfl
  have hd := (reset_request sampleEnv resetMsg (engineAt .ENGINE_DIRTY) rfl (by decide)).2.1 rfl
  have hf := (reset_request deliverFailEnv resetMsg (engineAt .ENGINE_DIRTY) rfl
    (by decide)).2.2 2 rfl
  ⟨hr.1, hc.1, hd.1, hd.2.2, hf.2.1, hf.2.2.1⟩

/-! ## Admission with no session held -/

/-- C12 as stated fails: with no session held, an admission request on the
console port with a 16-character peer address whose accept answer cannot be
delivered does not fail with `AJ_ERR_RESOURCES`; the handler returns the
failure of the answer. -/
theorem admission_long_address_reply_failure :
    (AJS_ConsoleMsgHandler acceptFailEnv (admitSession 7714 5 "0123456789abcdef")
        (State.init [])).status = .AJ_ERR_BUS 1 ∧
      (AJS_ConsoleMsgHandler acceptFailEnv (admitSession 7714 5 "0123456789abcdef")
        (State.init [])).status ≠ .AJ_ERR_RESOURCES := by
  decide

/-- A string that holds no NUL is the C string it is read as. -/
theorem cString_eq_self (s : String) (h : ∀ c ∈ s.data, c ≠ Char.ofNat 0) : cString s = s := by
  have hl : s.data.takeWhile (fun c => c != Char.ofNat 0) = s.data := by
    rw [List.takeWhile_eq_self_iff]
    intro c hc
    simpa using h c hc
  unfold cString
  rw [hl]

/-- C12, amended: with no session held, an admission request on the console
port whose peer address is longer than 15 characters (`strlen` counts the
bytes of the C string, so `strlen(joiner) + 1` exceeds the 16 bytes of
`consoleBusName`) leaves the whole state unchanged (no session held, stored
peer address as before); the handler has called
`AJ_BusReplyAcceptSession(msg, TRUE)` and returns `AJ_ERR_RESOURCES` when that
answer was delivered and the failure of the answer otherwise. A peer address
of exactly 15 bytes is stored in full once the answer is delivered. -/
theorem admission_long_address (env : Env) (msg : AJ_Message) (s : State)
    (sessionId : Nat) (joiner : String)
    (hid : msg.msgId = .AJ_METHOD_ACCEPT_SESSION)
    (hargs : msg.qus = .ok (SCRIPT_CONSOLE_PORT, sessionId, joiner))
    (hnone : s.consoleSession = 0) :
    (15 < strlen joiner →
      (AJS_ConsoleMsgHandler env msg s).st = s ∧
        (AJS_ConsoleMsgHandler env msg s).st.consoleSession = 0 ∧
        (AJS_ConsoleMsgHandler env msg s).st.consoleBusName = s.consoleBusName ∧
        (AJS_ConsoleMsgHandler env msg s).events
          = [.UnmarshalArgs "qus", .BusReplyAcceptSession true] ∧
        (env.replyAccept = .ok →
          (AJS_ConsoleMsgHandler env msg s).status = .AJ_ERR_RESOURCES) ∧
        (∀ code, env.replyAccept = .fail code →
          (AJS_ConsoleMsgHandler env msg s).status = .AJ_ERR_BUS code)) ∧
    (strlen joiner = 15 → env.replyAccept = .ok →
      (AJS_ConsoleMsgHandler env msg s).st.consoleBusName = cString joiner ∧
        ((∀ c ∈ joiner.data, c ≠ Char.ofNat 0) →
          (AJS_ConsoleMsgHandler env msg s).st.consoleBusName = joiner) ∧
        (AJS_ConsoleMsgHandler env msg s).st.consoleSession = sessionId ∧
        (AJS_ConsoleMsgHandler env msg s).status = .AJ_OK) := by
  constructor
  · intro hlen
    have hsz : strlen joiner + 1 > sizeofConsoleBusName := by
      simp only [sizeofConsoleBusName]; omega
    cases hr : env.replyAccept <;>
      simp [AJS_ConsoleMsgHandler, hid, hargs, hnone, hr, hsz]
  · intro hlen hr
    have hsz : ¬ strlen joiner + 1 > sizeofConsoleBusName := by
      simp only [sizeofConsoleBusName]; omega
    have hname : (AJS_ConsoleMsgHandler env msg s).st.consoleBusName = cString joiner := by
      simp [AJS_ConsoleMsgHandler, hid, hargs, hnone, hr, hsz]
    refine ⟨hname, ?_, ?_, ?_⟩
    · intro hnul
      rw [hname, cString_eq_self joiner hnul]
    · simp [AJS_ConsoleMsgHandler, hid, hargs, hnone, hr, hsz]
    · simp [AJS_ConsoleMsgHandler, hid, hargs, hnone, hr, hsz]

/-- C12 on concrete requests: a 16-byte address gives `AJ_ERR_RESOURCES` and
no session, be it 16 ASCII characters or the 8 two-byte characters of
"éééééééé"; a 15-byte address is stored in full. -/
theorem admission_long_address_witness :
    (AJS_ConsoleMsgHandler sampleEnv (admitSession 7714 5 "0123456789abcdef")
        (State.init [])).status = .AJ_ERR_RESOURCES ∧
      (AJS_ConsoleMsgHandler sampleEnv (admitSession 7714 5 "0123456789abcdef")
        (State.init [])).st = State.init [] ∧
      strlen "éééééééé" = 16 ∧
      (AJS_ConsoleMsgHandler sampleEnv (admitSession 7714 5 "éééééééé")
        (State.init [])).status = .AJ_ERR_RESOURCES ∧
      (AJS_ConsoleMsgHandler sampleEnv (admitSession 7714 5 "éééééééé")
        (State.init [])).st = State.init [] ∧
      (AJS_ConsoleMsgHandler sampleEnv (admitSession 7714 5 "0123456789abcde")
        (State.init [])).st.consoleBusName = "0123456789abcde" :=
  have h16 := (admission_long_address sampleEnv (admitSession 7714 5 "0123456789abcdef")
    (State.init []) 5 "0123456789abcdef" rfl rfl rfl).1 (by decide)
  have h8 := (admission_long_address sampleEnv (admitSession 7714 5 "éééééééé")
    (State.init []) 5 "éééééééé" rfl rfl rfl).1 (by decide)
  have h15 := (admission_long_address sampleEnv (admitSession 7714 5 "0123456789abcde")
    (State.init []) 5 "0123456789abcde" rfl rfl rfl).2 (by decide) rfl
  ⟨h16.2.2.2.2.1 rfl, h16.1, by decide, h8.2.2.2.2.1 rfl, h8.1, h15.2.1 (by decide)⟩

/-- C19: with no session held, an admission request on the console port with a
peer address of at most 15 characters (`strlen`, the bytes of the C string)
whose accept answer is delivered stores the request's session id and peer
address and returns `AJ_OK`; so a session is held afterwards exactly when the
requested id is non-zero, and after an accepted admission with id 0 a further
such admission is accepted as well. -/
theorem admission_accepted (env : Env) (msg : AJ_Message) (s : State)
    (sessionId : Nat) (joiner : String)
    (hid : msg.msgId = .AJ_METHOD_ACCEPT_SESSION)
    (hargs : msg.qus = .ok (SCRIPT_CONSOLE_PORT, sessionId, joiner))
    (hnone : s.consoleSession = 0) (hlen : strlen joiner ≤ 15)
    (hacc : env.replyAccept = .ok) :
    (AJS_ConsoleMsgHandler env msg s).st.consoleSession = sessionId ∧
    (AJS_ConsoleMsgHandler env msg s).st.consoleBusName = cString joiner ∧
    ((∀ c ∈ joiner.data, c ≠ Char.ofNat 0) →
      (AJS_ConsoleMsgHandler env msg s).st.consoleBusName = joiner) ∧
    (AJS_ConsoleMsgHandler env msg s).st
      = { s with consoleSession := sessionId, consoleBusName := cString joiner } ∧
    (AJS_ConsoleMsgHandler env msg s).status = .AJ_OK ∧
    (AJS_ConsoleMsgHandler env msg s).events
      = [.UnmarshalArgs "qus", .BusReplyAcceptSession true] ∧
    ((AJS_ConsoleMsgHandler env msg s).st.consoleSession ≠ 0 ↔ sessionId ≠ 0) ∧
    (sessionId = 0 → ∀ (msg2 : AJ_Message) (sessionId2 : Nat) (joiner2 : String),
      msg2.msgId = .AJ_METHOD_ACCEPT_SESSION →
      msg2.qus = .ok (SCRIPT_CONSOLE_PORT, sessionId2, joiner2) → strlen joiner2 ≤ 15 →
      (AJS_ConsoleMsgHandler env msg2 (AJS_ConsoleMsgHandler env msg s).st).events
          = [.UnmarshalArgs "qus", .BusReplyAcceptSession true] ∧
        (AJS_ConsoleMsgHandler env msg2 (AJS_ConsoleMsgHandler env msg s).st).st.consoleSession
          = sessionId2 ∧
        (AJS_ConsoleMsgHandler env msg2 (AJS_ConsoleMsgHandler env msg s).st).st.consoleBusName
          = cString joiner2) := by
  have hsz : ¬ strlen joiner + 1 > sizeofConsoleBusName := by
    simp only [sizeofConsoleBusName]; omega
  have hst : (AJS_ConsoleMsgHandler env msg s).st
      = { s with consoleSession := sessionId, consoleBusName := cString joiner } := by
    simp [AJS_ConsoleMsgHandler, hid, hargs, hnone, hacc, hsz]
  refine ⟨by rw [hst], by rw [hst], ?_, hst, ?_, ?_, by rw [hst], ?_⟩
  · intro hnul
    rw [hst]
    exact cString_eq_self joiner hnul
  · simp [AJS_ConsoleMsgHandler, hid, hargs, hnone, hacc, hsz]
  · simp [AJS_ConsoleMsgHandler, hid, hargs, hnone, hacc, hsz]
  · intro h0 msg2 sessionId2 joiner2 hid2 hargs2 hlen2
    have hsz2 : ¬ strlen joiner2 + 1 > sizeofConsoleBusName := by
      simp only [sizeofConsoleBusName]; omega
    rw [hst]
    simp [AJS_ConsoleMsgHandler, hid2, hargs2, h0, hacc, hsz2]

/-- C19 on concrete requests: `admit(7714, 5, "peerA")` on the initial state
stores session 5 and `peerA`; the 14-byte address "ééééééé" is stored as it
is; after `admit(7714, 0, "peerA")` no session is held and
`admit(7714, 6, "peerB")` is accepted, storing session 6. -/
theorem admission_accepted_witness :
    (AJS_ConsoleMsgHandler sampleEnv (admitSession 7714 5 "peerA") (State.init [])).st
        = heldState ∧
      (AJS_ConsoleMsgHandler sampleEnv (admitSession 7714 5 "ééééééé")
        (State.init [])).st.consoleBusName = "ééééééé" ∧
      (AJS_ConsoleMsgHandler sampleEnv (admitSession 7714 0 "peerA")
        (State.init [])).st.consoleSession = 0 ∧
      (AJS_ConsoleMsgHandler sampleEnv (admitSession 7714 6 "peerB")
        (AJS_ConsoleMsgHandler sampleEnv (admitSession 7714 0 "peerA")
          (State.init [])).st).st.consoleSession = 6 :=
  have h5 := admission_accepted sampleEnv (admitSession 7714 5 "peerA") (State.init []) 5
    "peerA" rfl rfl rfl (by decide) rfl
  have h7 := admission_accepted sampleEnv (admitSession 7714 5 "ééééééé") (State.init []) 5
    "ééééééé" rfl rfl rfl (by decide) rfl
  have h0 := admission_accepted sampleEnv (admitSession 7714 0 "peerA") (State.init []) 0
    "peerA" rfl rfl rfl (by decide) rfl
  ⟨h5.2.2.2.1, h7.2.2.1 (by decide), h0.1,
   (h0.2.2.2.2.2.2.2 rfl (admitSession 7714 6 "peerB") 6 "peerB" rfl rfl (by decide)).2.1⟩

/-! ## Reboot -/

/-- C20: with a session held, a `Reboot` request makes the single call
`AJ_Reboot()` (no reply, no read of the message), leaves the whole state
unchanged and, the call having returned, the handler returns
`AJ_ERR_NO_MATCH`, as it does for an identifier that is not in its table. -/
theorem reboot_request (env : Env) (msg : AJ_Message) (s : State)
    (hid : msg.msgId = .REBOOT_MSGID) (hheld : s.consoleSession ≠ 0) :
    (AJS_ConsoleMsgHandler env msg s).events = [.Reboot] ∧
    (AJS_ConsoleMsgHandler env msg s).events.count .Reboot = 1 ∧
    (AJS_ConsoleMsgHandler env msg s).st = s ∧
    (AJS_ConsoleMsgHandler env msg s).st.consoleSession = s.consoleSession ∧
    (AJS_ConsoleMsgHandler env msg s).st.consoleBusName = s.consoleBusName ∧
    (AJS_ConsoleMsgHandler env msg s).st.engineState = s.engineState ∧
    (AJS_ConsoleMsgHandler env msg s).status = .AJ_ERR_NO_MATCH ∧
    (∀ (other : AJ_Message) (id : Nat), other.msgId = .other id →
      (AJS_ConsoleMsgHandler env other s).status = (AJS_ConsoleMsgHandler env msg s).status ∧
        (AJS_ConsoleMsgHandler env other s).events = []) := by
  refine ⟨?_, ?_, ?_, ?_, ?_, ?_, ?_, ?_⟩
  · simp [AJS_ConsoleMsgHandler, hid, hheld]
  · simp [AJS_ConsoleMsgHandler, hid, hheld]
  · simp [AJS_ConsoleMsgHandler, hid, hheld]
  · simp [AJS_ConsoleMsgHandler, hid, hheld]
  · simp [AJS_ConsoleMsgHandler, hid, hheld]
  · simp [AJS_ConsoleMsgHandler, hid, hheld]
  · simp [AJS_ConsoleMsgHandler, hid, hheld]
  · intro other id hother
    simp [AJS_ConsoleMsgHandler, hid, hheld, hother]

/-- C20 on a concrete request: with session 5 held, `Reboot` calls the reboot
action once, the state stays `heldState` and the outcome is unmatched. -/
theorem reboot_request_witness :
    (AJS_ConsoleMsgHandler sampleEnv rebootMsg heldState).events = [.Reboot] ∧
      (AJS_ConsoleMsgHandler sampleEnv rebootMsg heldState).st = heldState ∧
      (AJS_ConsoleMsgHandler sampleEnv rebootMsg heldState).status = .AJ_ERR_NO_MATCH :=
  have h := reboot_request sampleEnv rebootMsg heldState rfl (by decide)
  ⟨h.1, h.2.2.1, h.2.2.2.2.2.2.1⟩

/-! ## Install on a clean engine -/

/-- A chunk loop makes transport reads and sink calls only. -/
theorem chunkLoop_events (env : Env) (sink : List Nat → List Event) (raw : List RawRead) :
    ∀ (l : Nat) (js : List Nat), ∀ e ∈ (chunkLoop env sink raw l js).events,
      (∃ n, e = .UnmarshalRaw n) ∨ ∃ c, e ∈ sink c := by
  induction raw with
  | nil =>
    intro l js
    cases l with
    | zero => simp [chunkLoop]
    | succ l => simp [chunkLoop]
  | cons r rest ih =>
    intro l js
    cases l with
    | zero => simp [chunkLoop]
    | succ l =>
      cases r with
      | fail code => simp [chunkLoop]
      | ok data =>
        intro e he
        have hev : (chunkLoop env sink (.ok data :: rest) (l + 1) js).events
            = .UnmarshalRaw (l + 1) :: (sink (data.take (l + 1)) ++
              (chunkLoop env sink rest (l + 1 - (data.take (l + 1)).length)
                (js ++ data.take (l + 1))).events) := by
          simp [chunkLoop]
        rw [hev, List.mem_cons, List.mem_append] at he
        rcases he with he | he | he
        · exact Or.inl ⟨_, he⟩
        · exact Or.inr ⟨_, he⟩
        · exact ih _ _ e he

/-- The chunk loop of `Install` makes transport reads and script writes only. -/
theorem chunkLoop_events_install (env : Env) (raw : List RawRead) (l : Nat) (js : List Nat) :
    ∀ e ∈ (chunkLoop env (fun chunk => [.WriteScript chunk]) raw l js).events,
      (∃ n, e = .UnmarshalRaw n) ∨ ∃ c, e = .WriteScript c := by
  intro e he
  rcases chunkLoop_events env _ raw l js e he with h | ⟨c, hc⟩
  · exact Or.inl h
  · exact Or.inr ⟨c, by simpa using hc⟩

/-- The length check of `Install` in terms of the length `Install` itself
decodes from `sizeof(size_t)` bytes: above `AJS_GetMaxScriptLen()` the reply
is (3, "Script too long") with no further read and no script sink call; at
most the maximum goes on to open the script sink. -/
theorem Install_too_long_decoded (env : Env) (msg : AJ_Message) (s : State) (scriptName : String)
    (data : List Nat) (rest : List RawRead)
    (hclean : s.engineState = .ENGINE_CLEAN) (hname : msg.s = .ok scriptName)
    (hraw : s.raw = .ok data :: rest) :
    (declaredLen env msg env.sizeofSizeT data > env.maxScriptLen →
      (Install env msg s).events = [.UnmarshalArgs "s", .UnmarshalRaw env.sizeofSizeT,
          .MarshalReplyMsg, .MarshalArgs 3 "Script too long", .DeliverMsg] ∧
        (Install env msg s).st.raw = rest ∧
        Event.OpenScript ∉ (Install env msg s).events ∧
        (∀ c, Event.WriteScript c ∉ (Install env msg s).events) ∧
        (Install env msg s).status = env.deliver.toStatus ∧
        (Install env msg s).status ≠ .AJ_ERR_RESTART_APP ∧
        (Install env msg s).st.engineState = .ENGINE_CLEAN ∧
        (Install env msg s).st.consoleSession = s.consoleSession) ∧
    (declaredLen env msg env.sizeofSizeT data ≤ env.maxScriptLen →
      (Install env msg s).events.take 4 = [.UnmarshalArgs "s",
          .UnmarshalRaw env.sizeofSizeT, .MarshalReplyMsg, .OpenScript] ∧
        Event.MarshalArgs 3 "Script too long" ∉ (Install env msg s).events) := by
  have hread : AJ_UnmarshalRaw env s.raw env.sizeofSizeT
      = (.ok (data.take env.sizeofSizeT), rest) := by
    simp [hraw, AJ_UnmarshalRaw]
  have hd : env.deliver.toStatus ≠ .AJ_ERR_RESTART_APP := by
    cases env.deliver <;> simp [BusResult.toStatus]
  constructor
  · intro hlen
    have hgt : declaredLen env msg env.sizeofSizeT (data.take env.sizeofSizeT)
        > env.maxScriptLen := by
      rw [declaredLen_take]; exact hlen
    simp [Install, hclean, hname, hread, hgt, hd, SCRIPT_RESOURCE_ERROR]
  · intro hlen
    have hle : ¬ declaredLen env msg env.sizeofSizeT (data.take env.sizeofSizeT)
        > env.maxScriptLen := by
      rw [declaredLen_take]; omega
    have hloop := chunkLoop_events_install env rest (declaredLen env msg env.sizeofSizeT data) []
    unfold Install
    simp only [hclean, ne_eq, not_true_eq_false, if_false, hname, hread, hle]
    rw [declaredLen_take]
    cases (chunkLoop env (fun chunk => [Event.WriteScript chunk]) rest
        (declaredLen env msg env.sizeofSizeT data) []).err with
    | some code =>
      refine ⟨by simp [ErrorReply], ?_⟩
      intro h
      simp [ErrorReply] at h
      rcases hloop _ h with ⟨n, hn⟩ | ⟨c, hc⟩
      · cases hn
      · cases hc
    | none =>
      refine ⟨by simp, ?_⟩
      intro h
      simp [SCRIPT_OK] at h
      rcases hloop _ h with ⟨n, hn⟩ | ⟨c, hc⟩
      · cases hn
      · cases hc

/-- On a host whose `size_t` has 4 bytes, an `Install` on a CLEAN engine whose
declared length (the 32-bit value of the first 4 bytes, byte order corrected)
exceeds `AJS_GetMaxScriptLen()` is answered (3, "Script too long"): no further
read, no script sink opened or written, no restart, engine still CLEAN; a
declared length of at most the maximum goes on to open the script sink. -/
theorem install_too_long_size4 (env : Env) (msg : AJ_Message) (s : State) (scriptName : String)
    (data : List Nat) (rest : List RawRead) (h4 : env.sizeofSizeT = 4)
    (hclean : s.engineState = .ENGINE_CLEAN) (hname : msg.s = .ok scriptName)
    (hraw : s.raw = .ok data :: rest) :
    (declaredLen env msg 4 data > env.maxScriptLen →
      (Install env msg s).events = [.UnmarshalArgs "s", .UnmarshalRaw 4,
          .MarshalReplyMsg, .MarshalArgs 3 "Script too long", .DeliverMsg] ∧
        (Install env msg s).st.raw = rest ∧
        Event.OpenScript ∉ (Install env msg s).events ∧
        (∀ c, Event.WriteScript c ∉ (Install env msg s).events) ∧
        (Install env msg s).status = env.deliver.toStatus ∧
        (Install env msg s).status ≠ .AJ_ERR_RESTART_APP ∧
        (Install env msg s).st.engineState = .ENGINE_CLEAN ∧
        (Install env msg s).st.consoleSession = s.consoleSession) ∧
    (declaredLen env msg 4 data ≤ env.maxScriptLen →
      (Install env msg s).events.take 4 = [.UnmarshalArgs "s",
          .UnmarshalRaw 4, .MarshalReplyMsg, .OpenScript] ∧
        Event.MarshalArgs 3 "Script too long" ∉ (Install env msg s).events) := by
  have h := Install_too_long_decoded env msg s scriptName data rest hclean hname hraw
  rw [h4] at h
  exact h

/-- On the 4-byte host of `sampleEnv`, with storage for 4096 bytes, a declared
length of 4097 is answered (3, "Script too long") and the engine stays CLEAN;
a declared length of 4096 opens the script sink. -/
theorem install_too_long_size4_witness :
    (Install sampleEnv installMsg (cleanState [.ok [1, 16, 0, 0], .ok [49]])).events
        = [.UnmarshalArgs "s", .UnmarshalRaw 4, .MarshalReplyMsg,
           .MarshalArgs 3 "Script too long", .DeliverMsg] ∧
      (Install sampleEnv installMsg
        (cleanState [.ok [1, 16, 0, 0], .ok [49]])).st.engineState = .ENGINE_CLEAN ∧
      (Install sampleEnv installMsg (cleanState [.ok [0, 16, 0, 0], .ok [49]])).events.take 4
        = [.UnmarshalArgs "s", .UnmarshalRaw 4, .MarshalReplyMsg, .OpenScript] :=
  have hgt := (install_too_long_size4 sampleEnv installMsg
    (cleanState [.ok [1, 16, 0, 0], .ok [49]])
    "demo" [1, 16, 0, 0] [.ok [49]] rfl rfl rfl rfl).1 (by decide)
  have hle := (install_too_long_size4 sampleEnv installMsg
    (cleanState [.ok [0, 16, 0, 0], .ok [49]])
    "demo" [0, 16, 0, 0] [.ok [49]] rfl rfl rfl rfl).2 (by decide)
  ⟨hgt.1, hgt.2.2.2.2.2.2.1, hle.1⟩

/-- C15: on a host whose `size_t` has 8 bytes, with storage for 4096 bytes, an
`Install` on a CLEAN engine whose declared length is exactly the maximum
(length bytes `00 10 00 00`, then a script that starts `1111`) is answered
(3, "Script too long") and the script sink is never opened: the 8-byte length
read takes the first script bytes into the length. The same defect as in C14.
On the 4-byte host of `sampleEnv` the same declared length goes on to open
the script sink, as the claim says. -/
theorem install_boundary_size8 :
    env64.maxScriptLen = 4096 ∧
      declaredLen env64 installMsg 4 [0, 16, 0, 0, 49, 49, 49, 49] = 4096 ∧
      (cleanState [.ok [0, 16, 0, 0, 49, 49, 49, 49]]).engineState = .ENGINE_CLEAN ∧
      (Install env64 installMsg (cleanState [.ok [0, 16, 0, 0, 49, 49, 49, 49]])).events
        = [.UnmarshalArgs "s", .UnmarshalRaw 8, .MarshalReplyMsg,
           .MarshalArgs 3 "Script too long", .DeliverMsg] ∧
      (Install sampleEnv installMsg
        (cleanState [.ok [0, 16, 0, 0], .ok [49, 49, 49, 49]])).events.take 6
        = [.UnmarshalArgs "s", .UnmarshalRaw 4, .MarshalReplyMsg, .OpenScript,
           .UnmarshalRaw 4096, .WriteScript [49, 49, 49, 49]] := by
  decide

/-- The bytes written by two runs of calls are those of the first followed by
those of the second. -/
theorem written_append (a b : List Event) : written (a ++ b) = written a ++ written b := by
  induction a with
  | nil => rfl
  | cons e es ih => cases e <;> simp [written, ih]

/-- The writes of a loop that is handed the chunks `cs` are the chunks in order. -/
theorem written_expectedReads (cs : List (List Nat)) :
    written (expectedReads (fun c => [.WriteScript c]) cs) = cs.flatten := by
  induction cs with
  | nil => rfl
  | cons c cs ih => simp [expectedReads, written, ih]

/-- The calls of a loop that is handed chunks are reads and sink calls only. -/
theorem mem_expectedReads (sink : List Nat → List Event) (cs : List (List Nat)) :
    ∀ e ∈ expectedReads sink cs, (∃ n, e = .UnmarshalRaw n) ∨ ∃ c, e ∈ sink c := by
  induction cs with
  | nil => simp [expectedReads]
  | cons c cs ih =>
    intro e he
    have hev : expectedReads sink (c :: cs)
        = .UnmarshalRaw ((c :: cs).map List.length).sum :: (sink c ++ expectedReads sink cs) :=
      rfl
    rw [hev, List.mem_cons, List.mem_append] at he
    rcases he with he | he | he
    · exact Or.inl ⟨_, he⟩
    · exact Or.inr ⟨_, he⟩
    · exact ih e he

/-- The transfer of `Install` in terms of the length `L` that `Install` itself
decodes from `sizeof(size_t)` bytes: with `L` at most `AJS_GetMaxScriptLen()`
and reads that return the non-empty chunks `chunks` whose sizes sum to `L`,
the sink is opened once, each chunk is written as read, the sink is closed
once, the reply is (0, "Script installed") and a delivered reply gives
`AJ_ERR_RESTART_APP`. -/
theorem Install_streams_decoded (env : Env) (msg : AJ_Message) (s : State)
    (scriptName : String) (data : List Nat) (chunks : List (List Nat)) (rest : List RawRead)
    (L : Nat) (hclean : s.engineState = .ENGINE_CLEAN) (hname : msg.s = .ok scriptName)
    (hraw : s.raw = .ok data :: (chunks.map .ok ++ rest))
    (hdecl : declaredLen env msg env.sizeofSizeT data = L) (hmax : L ≤ env.maxScriptLen)
    (hne : ∀ c ∈ chunks, 1 ≤ c.length) (hsum : (chunks.map List.length).sum = L) :
    (Install env msg s).events
      = [.UnmarshalArgs "s", .UnmarshalRaw env.sizeofSizeT, .MarshalReplyMsg, .OpenScript]
        ++ expectedReads (fun c => [.WriteScript c]) chunks
        ++ [.CloseScript, .MarshalArgs 0 "Script installed", .DeliverMsg] ∧
    written (Install env msg s).events = chunks.flatten ∧
    (written (Install env msg s).events).length = L ∧
    (Install env msg s).events.count .OpenScript = 1 ∧
    (Install env msg s).events.count .CloseScript = 1 ∧
    (Install env msg s).st.raw = rest ∧
    (Install env msg s).st.scriptName = some scriptName ∧
    (env.deliver = .ok → (Install env msg s).status = .AJ_ERR_RESTART_APP) := by
  have hread : AJ_UnmarshalRaw env s.raw env.sizeofSizeT
      = (.ok (data.take env.sizeofSizeT), chunks.map .ok ++ rest) := by
    simp [hraw, AJ_UnmarshalRaw]
  have hd : declaredLen env msg env.sizeofSizeT (data.take env.sizeofSizeT) = L := by
    rw [declaredLen_take]; exact hdecl
  have hle : ¬ L > env.maxScriptLen := by omega
  have hloop := chunkLoop_chunks env (fun c => [Event.WriteScript c]) rest chunks [] hne
  rw [hsum] at hloop
  have hout : Install env msg s =
      { status := if env.deliver = .ok then .AJ_ERR_RESTART_APP else env.deliver.toStatus,
        st := { s with stack := "[object Object]" :: s.stack, scriptName := some scriptName,
                       raw := rest },
        events := [.UnmarshalArgs "s", .UnmarshalRaw env.sizeofSizeT, .MarshalReplyMsg,
            .OpenScript] ++ expectedReads (fun c => [.WriteScript c]) chunks
          ++ [.CloseScript, .MarshalArgs 0 "Script installed", .DeliverMsg] } := by
    unfold Install
    simp only [hclean, ne_eq, not_true_eq_false, if_false, hname, hread, hd, hle, hloop]
    simp [SCRIPT_OK]
  have hmem := mem_expectedReads (fun c => [Event.WriteScript c]) chunks
  have hcount : ∀ e : Event, (∀ n, e ≠ .UnmarshalRaw n) → (∀ c, e ≠ .WriteScript c) →
      (expectedReads (fun c => [Event.WriteScript c]) chunks).count e = 0 := by
    intro e h1 h2
    rw [List.count_eq_zero]
    intro he
    rcases hmem e he with ⟨n, hn⟩ | ⟨c, hc⟩
    · exact h1 n hn
    · exact h2 c (by simpa using hc)
  have hlen : chunks.flatten.length = L := by
    rw [List.length_flatten]; exact hsum
  rw [hout]
  refine ⟨rfl, ?_, ?_, ?_, ?_, rfl, rfl, ?_⟩
  · simp [written_append, written, written_expectedReads]
  · simp [written_append, written, written_expectedReads, hlen]
  · simp only [List.count_append, hcount .OpenScript (by simp) (by simp)]
    simp [List.count_cons]
  · simp only [List.count_append, hcount .CloseScript (by simp) (by simp)]
    simp [List.count_cons]
  · intro hok
    simp [hok]

/-- On a host whose `size_t` has 4 bytes, an `Install` on a CLEAN engine whose
script name and length field are read, with a declared length `L` (the 32-bit
value of the first 4 bytes, byte order corrected) of at most
`AJS_GetMaxScriptLen()` and reads that return the non-empty chunks `chunks`
whose sizes sum to `L`, opens the script sink once, writes each chunk as it
was read (the written bytes are the concatenation of the chunks, `L` bytes,
nothing stripped), closes the sink once after the last write, marshals the
reply (0, "Script installed") and delivers it; when the delivery succeeds the
handler returns `AJ_ERR_RESTART_APP`. -/
theorem install_streams_payload_size4 (env : Env) (msg : AJ_Message) (s : State)
    (scriptName : String) (data : List Nat) (chunks : List (List Nat)) (rest : List RawRead)
    (L : Nat) (h4 : env.sizeofSizeT = 4)
    (hclean : s.engineState = .ENGINE_CLEAN) (hname : msg.s = .ok scriptName)
    (hraw : s.raw = .ok data :: (chunks.map .ok ++ rest))
    (hdecl : declaredLen env msg 4 data = L) (hmax : L ≤ env.maxScriptLen)
    (hne : ∀ c ∈ chunks, 1 ≤ c.length) (hsum : (chunks.map List.length).sum = L) :
    (Install env msg s).events
      = [.UnmarshalArgs "s", .UnmarshalRaw 4, .MarshalReplyMsg, .OpenScript]
        ++ expectedReads (fun c => [.WriteScript c]) chunks
        ++ [.CloseScript, .MarshalArgs 0 "Script installed", .DeliverMsg] ∧
    written (Install env msg s).events = chunks.flatten ∧
    (written (Install env msg s).events).length = L ∧
    (Install env msg s).events.count .OpenScript = 1 ∧
    (Install env msg s).events.count .CloseScript = 1 ∧
    (Install env msg s).st.raw = rest ∧
    (Install env msg s).st.scriptName = some scriptName ∧
    (env.deliver = .ok → (Install env msg s).status = .AJ_ERR_RESTART_APP) := by
  have h := Install_streams_decoded env msg s scriptName data chunks rest L hclean hname hraw
    (by rw [h4]; exact hdecl) hmax hne hsum
  rw [h4] at h
  exact h

/-- On the 4-byte host of `sampleEnv` and a CLEAN engine,
`Install("demo", 10 bytes)`, the bytes arriving as chunks of 4 and 6 and
ending in a zero byte, writes the 10 bytes as they came, closes the sink once,
replies (0, "Script installed") and asks for the restart. -/
theorem install_streams_payload_size4_witness :
    (Install sampleEnv installMsg
        (cleanState [.ok [10, 0, 0, 0], .ok [1, 2, 3, 4], .ok [5, 6, 7, 8, 9, 0]])).events
      = [.UnmarshalArgs "s", .UnmarshalRaw 4, .MarshalReplyMsg, .OpenScript,
         .UnmarshalRaw 10, .WriteScript [1, 2, 3, 4], .UnmarshalRaw 6,
         .WriteScript [5, 6, 7, 8, 9, 0], .CloseScript,
         .MarshalArgs 0 "Script installed", .DeliverMsg] ∧
      written (Install sampleEnv installMsg
        (cleanState [.ok [10, 0, 0, 0], .ok [1, 2, 3, 4], .ok [5, 6, 7, 8, 9, 0]])).events
      = [1, 2, 3, 4, 5, 6, 7, 8, 9, 0] ∧
      (Install sampleEnv installMsg
        (cleanState [.ok [10, 0, 0, 0], .ok [1, 2, 3, 4], .ok [5, 6, 7, 8, 9, 0]])).status
      = .AJ_ERR_RESTART_APP :=
  have h := install_streams_payload_size4 sampleEnv installMsg
    (cleanState [.ok [10, 0, 0, 0], .ok [1, 2, 3, 4], .ok [5, 6, 7, 8, 9, 0]]) "demo"
    [10, 0, 0, 0] [[1, 2, 3, 4], [5, 6, 7, 8, 9, 0]] [] 10 rfl rfl rfl rfl (by decide)
    (by decide) (by decide) rfl
  ⟨h.1, h.2.1, h.2.2.2.2.2.2.2 rfl⟩

/-- C13, scenario B on a host whose `size_t` has 8 bytes: on a CLEAN engine
with storage for 4096 bytes, `Install("demo", 10 bytes)` (length bytes
`0A 00 00 00`, then the 10 bytes) is answered (3, "Script too long"); nothing
is written, the sink is never opened and no restart is asked for: the 8-byte
length read takes the first four script bytes into the length. The same defect
as in C14. On the 4-byte host of `sampleEnv` the same request writes the 10
bytes, replies (0, "Script installed") and asks for the restart. -/
theorem install_payload_size8 :
    declaredLen env64 installMsg 4 [10, 0, 0, 0, 1, 2, 3, 4] = 10 ∧
      10 ≤ env64.maxScriptLen ∧
      (cleanState [.ok [10, 0, 0, 0, 1, 2, 3, 4], .ok [5, 6, 7, 8, 9, 0]]).engineState
        = .ENGINE_CLEAN ∧
      (Install env64 installMsg
        (cleanState [.ok [10, 0, 0, 0, 1, 2, 3, 4], .ok [5, 6, 7, 8, 9, 0]])).events
        = [.UnmarshalArgs "s", .UnmarshalRaw 8, .MarshalReplyMsg,
           .MarshalArgs 3 "Script too long", .DeliverMsg] ∧
      written (Install env64 installMsg
        (cleanState [.ok [10, 0, 0, 0, 1, 2, 3, 4], .ok [5, 6, 7, 8, 9, 0]])).events = [] ∧
      (Install env64 installMsg
        (cleanState [.ok [10, 0, 0, 0, 1, 2, 3, 4], .ok [5, 6, 7, 8, 9, 0]])).status
        = .AJ_OK ∧
      written (Install sampleEnv installMsg
        (cleanState [.ok [10, 0, 0, 0], .ok [1, 2, 3, 4], .ok [5, 6, 7, 8, 9, 0]])).events
        = [1, 2, 3, 4, 5, 6, 7, 8, 9, 0] ∧
      (Install sampleEnv installMsg
        (cleanState [.ok [10, 0, 0, 0], .ok [1, 2, 3, 4], .ok [5, 6, 7, 8, 9, 0]])).status
        = .AJ_ERR_RESTART_APP := by
  decide

/-! ## Writers of the engine state -/

/-- `Eval` never touches the session, and leaves the engine state as it was
unless `duk_pcall` returned success, in which case the state is DIRTY. -/
theorem Eval_globals (env : Env) (msg : AJ_Message) (s : State) :
    (Eval env msg s).st.consoleSession = s.consoleSession ∧
    (Eval env msg s).st.consoleBusName = s.consoleBusName ∧
    ((Eval env msg s).st.engineState = s.engineState ∨
      ((Eval env msg s).st.engineState = .ENGINE_DIRTY ∧
        Event.Pcall .DUK_EXEC_SUCCESS ∈ (Eval env msg s).events)) := by
  unfold Eval
  rcases AJ_UnmarshalRaw env s.raw 4 with ⟨res, raw1⟩
  cases res with
  | error code => simp [ErrorReply]
  | ok hdr =>
    simp only []
    cases (chunkLoop env (fun _ => []) raw1 (declaredLen env msg 4 hdr) []).err with
    | some code => split_ifs <;> simp [EvalReply, ErrorReply]
    | none => split_ifs <;> simp [EvalReply, ErrorReply, *]

/-- `Install` never touches the session or the engine state. -/
theorem Install_globals (env : Env) (msg : AJ_Message) (s : State) :
    (Install env msg s).st.consoleSession = s.consoleSession ∧
    (Install env msg s).st.consoleBusName = s.consoleBusName ∧
    (Install env msg s).st.engineState = s.engineState := by
  unfold Install
  by_cases hc : s.engineState = .ENGINE_CLEAN
  · simp only [hc, ne_eq, not_true_eq_false, if_false]
    cases msg.s with
    | error code => simp [ErrorReply, hc]
    | ok scriptName =>
      simp only []
      rcases AJ_UnmarshalRaw env s.raw env.sizeofSizeT with ⟨res, raw1⟩
      cases res with
      | error code => simp [ErrorReply, hc]
      | ok hdr =>
        simp only []
        cases (chunkLoop env (fun chunk => [Event.WriteScript chunk]) raw1
            (declaredLen env msg env.sizeofSizeT hdr) []).err with
        | some code => split_ifs <;> simp [ErrorReply, hc]
        | none => split_ifs <;> simp [hc]
  · simp [hc]

/-- The handler leaves the engine state as it was, except for a delivered
`Reset` (CLEAN) and an `Eval` whose `duk_pcall` returned success (DIRTY). -/
theorem handler_engineState (env : Env) (msg : AJ_Message) (s : State) :
    (AJS_ConsoleMsgHandler env msg s).st.engineState = s.engineState ∨
    (msg.msgId = .RESET_MSGID ∧ env.deliver = .ok ∧
      (AJS_ConsoleMsgHandler env msg s).st.engineState = .ENGINE_CLEAN) ∨
    (msg.msgId = .EVAL_MSGID ∧
      (AJS_ConsoleMsgHandler env msg s).st.engineState = .ENGINE_DIRTY ∧
      Event.Pcall .DUK_EXEC_SUCCESS ∈ (AJS_ConsoleMsgHandler env msg s).events) := by
  by_cases hacc : msg.msgId = .AJ_METHOD_ACCEPT_SESSION
  · left
    simp only [AJS_ConsoleMsgHandler, hacc, if_true]
    cases msg.qus with
    | error code => rfl
    | ok v =>
      obtain ⟨port, sessionId, joiner⟩ := v
      simp only []
      cases env.replyAccept <;> split_ifs <;> rfl
  · by_cases hs : s.consoleSession = 0
    · left
      simp [AJS_ConsoleMsgHandler, hacc, hs]
    · cases hid : msg.msgId with
      | AJ_METHOD_ACCEPT_SESSION => exact absurd hid hacc
      | AJ_SIGNAL_SESSION_LOST_WITH_REASON =>
        left
        cases hu : msg.u with
        | error code => simp [AJS_ConsoleMsgHandler, hid, hs, hu]
        | ok sessionId =>
          by_cases he : sessionId = s.consoleSession <;>
            simp [AJS_ConsoleMsgHandler, hid, hs, hu, he]
      | GET_PROP_MSGID =>
        left
        cases hp : msg.prop <;> simp [AJS_ConsoleMsgHandler, hid, hs, busProp, hp]
      | SET_PROP_MSGID =>
        left
        cases hp : msg.prop <;> simp [AJS_ConsoleMsgHandler, hid, hs, busProp, hp]
      | EVAL_MSGID =>
        have hh : AJS_ConsoleMsgHandler env msg s = Eval env msg s := by
          simp [AJS_ConsoleMsgHandler, hid, hs]
        rw [hh]
        rcases (Eval_globals env msg s).2.2 with h | h
        · exact Or.inl h
        · exact Or.inr (Or.inr ⟨rfl, h.1, h.2⟩)
      | INSTALL_MSGID =>
        left
        have hh : AJS_ConsoleMsgHandler env msg s = Install env msg s := by
          simp [AJS_ConsoleMsgHandler, hid, hs]
        rw [hh]
        exact (Install_globals env msg s).2.2
      | RESET_MSGID =>
        have hh : AJS_ConsoleMsgHandler env msg s = Reset env s := by
          simp [AJS_ConsoleMsgHandler, hid, hs]
        rw [hh]
        cases hd : env.deliver with
        | ok => exact Or.inr (Or.inl ⟨rfl, rfl, by simp [Reset, hd]⟩)
        | fail code => exact Or.inl (by simp [Reset, hd])
      | REBOOT_MSGID => left; simp [AJS_ConsoleMsgHandler, hid, hs]
      | PRINT_SIGNAL_MSGID => left; simp [AJS_ConsoleMsgHandler, hid, hs]
      | ALERT_SIGNAL_MSGID => left; simp [AJS_ConsoleMsgHandler, hid, hs]
      | other id => left; simp [AJS_ConsoleMsgHandler, hid, hs]

/-- C17: the engine state is RUNNING at start; a message handled by
`AJS_ConsoleMsgHandler` changes it only when it is a `Reset` whose reply was
delivered (new state CLEAN) or an `Eval` whose `duk_pcall` returned success
(new state DIRTY), so every message that is neither a `Reset` nor an `Eval`
(admission, session lost, property get and set, `Install`, `Reboot`, unknown)
leaves it as it was; `AJS_ConsoleTerminate` sets DIRTY and clears the
session, and the other entry points of the module, `AJS_AlertHandler`,
`AJS_ConsoleSignalError` and `AJS_ConsoleInit`, leave the state alone. -/
theorem engine_state_writers (env : Env) (msg : AJ_Message) (s : State) :
    (∀ raw, (State.init raw).engineState = .ENGINE_RUNNING) ∧
    ((AJS_ConsoleMsgHandler env msg s).st.engineState ≠ s.engineState →
      (msg.msgId = .RESET_MSGID ∧ env.deliver = .ok ∧
        (AJS_ConsoleMsgHandler env msg s).st.engineState = .ENGINE_CLEAN) ∨
      (msg.msgId = .EVAL_MSGID ∧
        (AJS_ConsoleMsgHandler env msg s).st.engineState = .ENGINE_DIRTY ∧
        Event.Pcall .DUK_EXEC_SUCCESS ∈ (AJS_ConsoleMsgHandler env msg s).events)) ∧
    (msg.msgId ≠ .RESET_MSGID → msg.msgId ≠ .EVAL_MSGID →
      (AJS_ConsoleMsgHandler env msg s).st.engineState = s.engineState) ∧
    (AJS_ConsoleTerminate s).engineState = .ENGINE_DIRTY ∧
    (AJS_ConsoleTerminate s).consoleSession = 0 ∧
    (∀ alert, (AJS_AlertHandler s alert).1 = s) ∧
    (AJS_ConsoleSignalError s).1 = s ∧
    (∀ bind, (AJS_ConsoleInit bind s).1 = s) := by
  have h := handler_engineState env msg s
  refine ⟨fun _ => rfl, ?_, ?_, rfl, rfl, ?_, ?_, fun _ => rfl⟩
  · intro hne
    rcases h with h | h
    · exact absurd h hne
    · exact h
  · intro hr he
    rcases h with h | h | h
    · exact h
    · exact absurd h.1 hr
    · exact absurd h.1 he
  · intro alert
    unfold AJS_AlertHandler
    split_ifs <;> rfl
  · unfold AJS_ConsoleSignalError AJS_AlertHandler
    split_ifs <;> rfl

/-- C17 on concrete messages: the engine starts RUNNING; a successful
`Install` leaves it CLEAN, a `Reboot` and an admission leave it RUNNING, and
`AJS_ConsoleTerminate` makes it DIRTY with no session. -/
theorem engine_state_writers_witness :
    (State.init []).engineState = .ENGINE_RUNNING ∧
      (AJS_ConsoleMsgHandler sampleEnv installMsg
        (cleanState [.ok [1, 0, 0, 0], .ok [49]])).st.engineState = .ENGINE_CLEAN ∧
      (AJS_ConsoleMsgHandler sampleEnv rebootMsg heldState).st.engineState
        = .ENGINE_RUNNING ∧
      (AJS_ConsoleMsgHandler sampleEnv (admitSession 7714 5 "peerA")
        (State.init [])).st.engineState = .ENGINE_RUNNING ∧
      (AJS_ConsoleTerminate heldState).engineState = .ENGINE_DIRTY ∧
      (AJS_ConsoleTerminate heldState).consoleSession = 0 :=
  ⟨(engine_state_writers sampleEnv installMsg heldState).1 [],
   (engine_state_writers sampleEnv installMsg
     (cleanState [.ok [1, 0, 0, 0], .ok [49]])).2.2.1 (by decide) (by decide),
   (engine_state_writers sampleEnv rebootMsg heldState).2.2.1 (by decide) (by decide),
   (engine_state_writers sampleEnv (admitSession 7714 5 "peerA")
     (State.init [])).2.2.1 (by decide) (by decide),
   (engine_state_writers sampleEnv rebootMsg heldState).2.2.2.1,
   (engine_state_writers sampleEnv rebootMsg heldState).2.2.2.2.1⟩

/-! ## Transport read failures -/

/-- In a chunk loop that a failing read has ended, that read is the last call;
before it there are only earlier reads and sink calls. -/
theorem chunkLoop_fail_events (env : Env) (sink : List Nat → List Event) (raw : List RawRead) :
    ∀ (l : Nat) (js : List Nat) (code : Nat), (chunkLoop env sink raw l js).err = some code →
      ∃ pre k, (chunkLoop env sink raw l js).events = pre ++ [.UnmarshalRaw k] ∧
        ∀ e ∈ pre, (∃ n, e = .UnmarshalRaw n) ∨ ∃ c, e ∈ sink c := by
  induction raw with
  | nil =>
    intro l js code h
    cases l with
    | zero => simp [chunkLoop] at h
    | succ l => exact ⟨[], l + 1, by simp [chunkLoop], by simp⟩
  | cons r rest ih =>
    intro l js code h
    cases l with
    | zero => simp [chunkLoop] at h
    | succ l =>
      cases r with
      | fail c => exact ⟨[], l + 1, by simp [chunkLoop], by simp⟩
      | ok data =>
        have herr : (chunkLoop env sink (.ok data :: rest) (l + 1) js).err
            = (chunkLoop env sink rest (l + 1 - (data.take (l + 1)).length)
                (js ++ data.take (l + 1))).err := by
          simp [chunkLoop]
        have hev : (chunkLoop env sink (.ok data :: rest) (l + 1) js).events
            = .UnmarshalRaw (l + 1) :: (sink (data.take (l + 1)) ++
              (chunkLoop env sink rest (l + 1 - (data.take (l + 1)).length)
                (js ++ data.take (l + 1))).events) := by
          simp [chunkLoop]
        rw [herr] at h
        obtain ⟨pre, k, hpre, hall⟩ := ih _ _ code h
        refine ⟨.UnmarshalRaw (l + 1) :: (sink (data.take (l + 1)) ++ pre), k, ?_, ?_⟩
        · rw [hev, hpre]; simp
        · intro e he
          rw [List.mem_cons, List.mem_append] at he
          rcases he with he | he | he
          · exact Or.inl ⟨_, he⟩
          · exact Or.inr ⟨_, he⟩
          · exact hall e he

/-- When `Eval` sends a status message it returns the delivery status and has
left the engine state as it was. -/
theorem Eval_status_reply (env : Env) (msg : AJ_Message) (s : State) (st : AJ_Status) :
    Event.MarshalStatusMsg st ∈ (Eval env msg s).events →
      (Eval env msg s).status = env.deliver.toStatus ∧
        (Eval env msg s).st.engineState = s.engineState := by
  unfold Eval
  rcases AJ_UnmarshalRaw env s.raw 4 with ⟨res, raw1⟩
  cases res with
  | error code => simp [ErrorReply]
  | ok hdr =>
    simp only []
    by_cases hlen : declaredLen env msg 4 hdr > MAX_EVAL_LEN
    · simp [hlen, EvalReply]
    · by_cases hm : env.malloc (declaredLen env msg 4 hdr) = true
      · simp only [hlen, hm, if_false, Bool.not_true, Bool.false_eq_true]
        have hloop := chunkLoop_events_eval env raw1 (declaredLen env msg 4 hdr) []
        cases (chunkLoop env (fun _ => []) raw1 (declaredLen env msg 4 hdr) []).err with
        | some code => simp [ErrorReply]
        | none =>
          simp only []
          split_ifs <;>
          · intro hmem
            exfalso
            simp [EvalReply] at hmem
            obtain ⟨n, hn⟩ := hloop _ hmem
            cases hn
      · simp [hlen, hm, ErrorReply]

/-- When `Install` sends a status message it returns the delivery status. -/
theorem Install_status_reply (env : Env) (msg : AJ_Message) (s : State) (st : AJ_Status) :
    Event.MarshalStatusMsg st ∈ (Install env msg s).events →
      (Install env msg s).status = env.deliver.toStatus := by
  unfold Install
  by_cases hc : s.engineState = .ENGINE_CLEAN
  · simp only [hc, ne_eq, not_true_eq_false, if_false]
    cases msg.s with
    | error code => simp [ErrorReply]
    | ok scriptName =>
      simp only []
      rcases AJ_UnmarshalRaw env s.raw env.sizeofSizeT with ⟨res, raw1⟩
      cases res with
      | error code => simp [ErrorReply]
      | ok hdr =>
        simp only []
        by_cases hlen : declaredLen env msg env.sizeofSizeT hdr > env.maxScriptLen
        · simp [hlen]
        · simp only [hlen, if_false]
          have hloop := chunkLoop_events_install env raw1
            (declaredLen env msg env.sizeofSizeT hdr) []
          cases (chunkLoop env (fun chunk => [Event.WriteScript chunk]) raw1
              (declaredLen env msg env.sizeofSizeT hdr) []).err with
          | some code => simp [ErrorReply]
          | none =>
            simp only []
            intro hmem
            exfalso
            simp at hmem
            rcases hloop _ hmem with ⟨n, hn⟩ | ⟨c, hcc⟩
            · cases hn
            · cases hcc
  · simp [hc]

/-- C16: when a transport read of an `Eval` or `Install` request fails with
`code` (the read of the length field, the read of the script name, or a chunk
read), the failing read is the last read; after it come only the release of
the buffer or the closing of the script sink, then `AJ_MarshalStatusMsg` with
that failure and the one `AJ_DeliverMsg`; no compile, no run and no (status,
text) reply occur anywhere; the handler returns the delivery status, and the
session and the engine state are as before. -/
theorem transport_failure_aborts (env : Env) (msg : AJ_Message) (s : State) (code : Nat) :
    ((AJ_UnmarshalRaw env s.raw 4).1 = .error code →
      (Eval env msg s).events
        = [.UnmarshalRaw 4, .MarshalStatusMsg (.AJ_ERR_BUS code), .DeliverMsg]) ∧
    (∀ hdr raw1, AJ_UnmarshalRaw env s.raw 4 = (.ok hdr, raw1) →
      declaredLen env msg 4 hdr ≤ MAX_EVAL_LEN → env.malloc (declaredLen env msg 4 hdr) = true →
      (chunkLoop env (fun _ => []) raw1 (declaredLen env msg 4 hdr) []).err = some code →
      ∃ reads k, (Eval env msg s).events
          = .UnmarshalRaw 4 :: .Malloc (declaredLen env msg 4 hdr) :: reads ++
            [.UnmarshalRaw k, .Free, .MarshalStatusMsg (.AJ_ERR_BUS code), .DeliverMsg] ∧
        ∀ e ∈ reads, ∃ n, e = .UnmarshalRaw n) ∧
    (s.engineState = .ENGINE_CLEAN → msg.s = .error code →
      (Install env msg s).events
        = [.UnmarshalArgs "s", .MarshalStatusMsg (.AJ_ERR_BUS code), .DeliverMsg]) ∧
    (∀ scriptName, s.engineState = .ENGINE_CLEAN → msg.s = .ok scriptName →
      (AJ_UnmarshalRaw env s.raw env.sizeofSizeT).1 = .error code →
      (Install env msg s).events
        = [.UnmarshalArgs "s", .UnmarshalRaw env.sizeofSizeT,
           .MarshalStatusMsg (.AJ_ERR_BUS code), .DeliverMsg]) ∧
    (∀ scriptName hdr raw1, s.engineState = .ENGINE_CLEAN → msg.s = .ok scriptName →
      AJ_UnmarshalRaw env s.raw env.sizeofSizeT = (.ok hdr, raw1) →
      declaredLen env msg env.sizeofSizeT hdr ≤ env.maxScriptLen →
      (chunkLoop env (fun chunk => [.WriteScript chunk]) raw1
        (declaredLen env msg env.sizeofSizeT hdr) []).err = some code →
      ∃ transfer k, (Install env msg s).events
          = [.UnmarshalArgs "s", .UnmarshalRaw env.sizeofSizeT, .MarshalReplyMsg, .OpenScript]
            ++ transfer ++
            [.UnmarshalRaw k, .CloseScript, .MarshalStatusMsg (.AJ_ERR_BUS code), .DeliverMsg] ∧
        ∀ e ∈ transfer, (∃ n, e = .UnmarshalRaw n) ∨ ∃ c, e = .WriteScript c) ∧
    (∀ st, Event.MarshalStatusMsg st ∈ (Eval env msg s).events →
      (Eval env msg s).status = env.deliver.toStatus ∧
        (Eval env msg s).st.engineState = s.engineState ∧
        (Eval env msg s).st.consoleSession = s.consoleSession ∧
        (Eval env msg s).st.consoleBusName = s.consoleBusName) ∧
    (∀ st, Event.MarshalStatusMsg st ∈ (Install env msg s).events →
      (Install env msg s).status = env.deliver.toStatus ∧
        (Install env msg s).st.engineState = s.engineState ∧
        (Install env msg s).st.consoleSession = s.consoleSession ∧
        (Install env msg s).st.consoleBusName = s.consoleBusName) := by
  refine ⟨?_, ?_, ?_, ?_, ?_, ?_, ?_⟩
  · intro h
    unfold Eval
    rcases hr : AJ_UnmarshalRaw env s.raw 4 with ⟨res, raw1⟩
    rw [hr] at h
    simp only at h
    subst h
    simp [ErrorReply]
  · intro hdr raw1 hr hlen hm herr
    obtain ⟨pre, k, hev, hall⟩ := chunkLoop_fail_events env (fun _ => []) raw1 _ [] code herr
    refine ⟨pre, k, ?_, ?_⟩
    · unfold Eval
      rw [hr]
      have hle : ¬ declaredLen env msg 4 hdr > MAX_EVAL_LEN := by omega
      simp [hle, hm, herr, hev, ErrorReply]
    · intro e he
      rcases hall e he with h | ⟨c, hc⟩
      · exact h
      · simp at hc
  · intro hclean hname
    simp [Install, hclean, hname, ErrorReply]
  · intro scriptName hclean hname h
    unfold Install
    rcases hr : AJ_UnmarshalRaw env s.raw env.sizeofSizeT with ⟨res, raw1⟩
    rw [hr] at h
    simp only at h
    subst h
    simp [hclean, hname, hr, ErrorReply]
  · intro scriptName hdr raw1 hclean hname hr hlen herr
    obtain ⟨pre, k, hev, hall⟩ :=
      chunkLoop_fail_events env (fun chunk => [Event.WriteScript chunk]) raw1 _ [] code herr
    refine ⟨pre, k, ?_, ?_⟩
    · unfold Install
      have hle : ¬ declaredLen env msg env.sizeofSizeT hdr > env.maxScriptLen := by omega
      simp [hclean, hname, hr, hle, herr, hev, ErrorReply]
    · intro e he
      rcases hall e he with h | ⟨c, hc⟩
      · exact Or.inl h
      · exact Or.inr ⟨c, by simpa using hc⟩
  · intro st hmem
    have hg := Eval_globals env msg s
    have hf := Eval_status_reply env msg s st hmem
    exact ⟨hf.1, hf.2, hg.1, hg.2.1⟩
  · intro st hmem
    have hg := Install_globals env msg s
    exact ⟨Install_status_reply env msg s st hmem, hg.2.2, hg.1, hg.2.1⟩

/-- C16 on concrete requests: a failing length read, and a failing second
chunk read of `Eval` and of `Install`, with the calls made in each case; the
engine state is as before. -/
theorem transport_failure_aborts_witness :
    (Eval sampleEnv evalMsg (withRaw [.fail 9])).events
        = [.UnmarshalRaw 4, .MarshalStatusMsg (.AJ_ERR_BUS 9), .DeliverMsg] ∧
      (Eval sampleEnv evalMsg (withRaw [.ok [3, 0, 0, 0], .ok [49], .fail 9])).events
        = [.UnmarshalRaw 4, .Malloc 3, .UnmarshalRaw 3, .UnmarshalRaw 2, .Free,
           .MarshalStatusMsg (.AJ_ERR_BUS 9), .DeliverMsg] ∧
      (Install sampleEnv installMsg (cleanState [.ok [3, 0, 0, 0], .ok [49], .fail 9])).events
        = [.UnmarshalArgs "s", .UnmarshalRaw 4, .MarshalReplyMsg, .OpenScript,
           .UnmarshalRaw 3, .WriteScript [49], .UnmarshalRaw 2, .CloseScript,
           .MarshalStatusMsg (.AJ_ERR_BUS 9), .DeliverMsg] ∧
      (Install sampleEnv installMsg
        (cleanState [.ok [3, 0, 0, 0], .ok [49], .fail 9])).st.engineState = .ENGINE_CLEAN ∧
      (Eval sampleEnv evalMsg
        (withRaw [.ok [3, 0, 0, 0], .ok [49], .fail 9])).st.engineState = .ENGINE_RUNNING :=
  ⟨(transport_failure_aborts sampleEnv evalMsg (withRaw [.fail 9]) 9).1 rfl,
   by decide, by decide,
   ((transport_failure_aborts sampleEnv installMsg
      (cleanState [.ok [3, 0, 0, 0], .ok [49], .fail 9]) 9).2.2.2.2.2.2
      (.AJ_ERR_BUS 9) (by decide)).2.1,
   ((transport_failure_aborts sampleEnv evalMsg
      (withRaw [.ok [3, 0, 0, 0], .ok [49], .fail 9]) 9).2.2.2.2.2.1
      (.AJ_ERR_BUS 9) (by decide)).2.1⟩

/-! ## Lifetime of the eval buffer and of the script sink -/

/-- C18: every run of `Eval` either never calls `AJ_Malloc` (and never
`AJ_Free`), or calls it once and gets NULL (and never calls `AJ_Free`), or
calls it once, then only reads the transport into the buffer and compiles it,
then calls `AJ_Free` once, and after that neither reads nor compiles nor
allocates nor frees again. Every run of `Install` either never opens, writes
or closes the script sink, or opens it once, then only reads and writes, then
closes it once, and after that neither writes nor opens nor closes again. -/
theorem buffer_and_sink_lifetime (env : Env) (msg : AJ_Message) (s : State) :
    (((∀ n, Event.Malloc n ∉ (Eval env msg s).events) ∧
        Event.Free ∉ (Eval env msg s).events) ∨
      (∃ n, env.malloc n = false ∧ (Eval env msg s).events
          = [.UnmarshalRaw 4, .Malloc n, .MarshalStatusMsg .AJ_ERR_RESOURCES, .DeliverMsg]) ∨
      (∃ n pre post, env.malloc n = true ∧
        (Eval env msg s).events = .UnmarshalRaw 4 :: .Malloc n :: pre ++ .Free :: post ∧
        (∀ e ∈ pre, (∃ k, e = .UnmarshalRaw k) ∨ ∃ src r, e = .Compile src r) ∧
        Event.Free ∉ post ∧ (∀ m, Event.Malloc m ∉ post) ∧
        (∀ k, Event.UnmarshalRaw k ∉ post) ∧ (∀ src r, Event.Compile src r ∉ post))) ∧
    ((Event.OpenScript ∉ (Install env msg s).events ∧
        Event.CloseScript ∉ (Install env msg s).events ∧
        (∀ c, Event.WriteScript c ∉ (Install env msg s).events)) ∨
      (∃ pre post, (Install env msg s).events
          = [.UnmarshalArgs "s", .UnmarshalRaw env.sizeofSizeT, .MarshalReplyMsg, .OpenScript]
            ++ pre ++ .CloseScript :: post ∧
        (∀ e ∈ pre, (∃ k, e = .UnmarshalRaw k) ∨ ∃ c, e = .WriteScript c) ∧
        Event.CloseScript ∉ post ∧ Event.OpenScript ∉ post ∧
        (∀ c, Event.WriteScript c ∉ post))) := by
  constructor
  · unfold Eval
    rcases AJ_UnmarshalRaw env s.raw 4 with ⟨res, raw1⟩
    cases res with
    | error code => left; simp [ErrorReply]
    | ok hdr =>
      simp only []
      have hloop := chunkLoop_events_eval env raw1 (declaredLen env msg 4 hdr) []
      generalize declaredLen env msg 4 hdr = L at *
      generalize chunkLoop env (fun _ => []) raw1 L [] = lp at *
      by_cases hlen : L > MAX_EVAL_LEN
      · left; simp [hlen, EvalReply]
      · by_cases hm : env.malloc L = true
        · right; right
          simp only [hlen, hm, if_false, Bool.not_true, Bool.false_eq_true]
          cases lp.err with
          | some code =>
            refine ⟨L, lp.events, [.MarshalStatusMsg (.AJ_ERR_BUS code), .DeliverMsg], hm,
              ?_, ?_, ?_⟩
            · simp [ErrorReply]
            · intro e he
              exact Or.inl (hloop e he)
            · simp
          | none =>
            simp only []
            have hpre : ∀ e ∈ lp.events
                ++ [.Compile (evalSource lp.buf L) (env.compile (evalSource lp.buf L)).1],
                (∃ k, e = Event.UnmarshalRaw k) ∨ ∃ src r, e = Event.Compile src r := by
              intro e he
              rw [List.mem_append] at he
              rcases he with he | he
              · exact Or.inl (hloop e he)
              · exact Or.inr ⟨_, _, by simpa using he⟩
            by_cases hc : (env.compile (evalSource lp.buf L)).1 = .DUK_EXEC_SUCCESS
            · refine ⟨L, lp.events
                ++ [.Compile (evalSource lp.buf L) (env.compile (evalSource lp.buf L)).1],
                .Pcall (env.pcall (evalSource lp.buf L)).1 :: (EvalReply env
                  (if (env.pcall (evalSource lp.buf L)).1 = .DUK_EXEC_SUCCESS then
                    { s with raw := lp.raw, engineState := .ENGINE_DIRTY,
                             stack := (env.pcall (evalSource lp.buf L)).2 :: s.stack }
                   else
                    { s with raw := lp.raw,
                             stack := (env.pcall (evalSource lp.buf L)).2 :: s.stack })
                  (env.pcall (evalSource lp.buf L)).1).events, hm, ?_, hpre, ?_⟩
              · simp [hc, EvalReply]
              · simp [EvalReply]
            · refine ⟨L, lp.events
                ++ [.Compile (evalSource lp.buf L) (env.compile (evalSource lp.buf L)).1],
                (EvalReply env
                  { s with raw := lp.raw,
                           stack := (env.compile (evalSource lp.buf L)).2 :: s.stack }
                  (env.compile (evalSource lp.buf L)).1).events, hm, ?_, hpre, ?_⟩
              · simp [hc, EvalReply]
              · simp [EvalReply]
        · right; left
          have hf : env.malloc L = false := by
            simpa using hm
          exact ⟨_, hf, by simp [hlen, hf, ErrorReply]⟩
  · unfold Install
    by_cases hc : s.engineState = .ENGINE_CLEAN
    · simp only [hc, ne_eq, not_true_eq_false, if_false]
      cases msg.s with
      | error code => left; simp [ErrorReply]
      | ok scriptName =>
        simp only []
        rcases AJ_UnmarshalRaw env s.raw env.sizeofSizeT with ⟨res, raw1⟩
        cases res with
        | error code => left; simp [ErrorReply]
        | ok hdr =>
          simp only []
          by_cases hlen : declaredLen env msg env.sizeofSizeT hdr > env.maxScriptLen
          · left; simp [hlen]
          · right
            simp only [hlen, if_false]
            have hloop := chunkLoop_events_install env raw1
              (declaredLen env msg env.sizeofSizeT hdr) []
            cases (chunkLoop env (fun chunk => [Event.WriteScript chunk]) raw1
                (declaredLen env msg env.sizeofSizeT hdr) []).err with
            | some code =>
              exact ⟨_, [.MarshalStatusMsg (.AJ_ERR_BUS code), .DeliverMsg],
                by simp [ErrorReply], hloop, by simp⟩
            | none =>
              exact ⟨_, [.MarshalArgs SCRIPT_OK "Script installed", .DeliverMsg],
                by simp, hloop, by simp⟩
    · left; simp [hc]

/-! ## Byte order of the length field -/

/-- The bits of the mask `0xFF0000` are bits 16 to 23. -/
theorem testBit_mask_FF0000 (j : Nat) : Nat.testBit 0xFF0000 j = (decide (16 ≤ j) && decide (j < 24)) := by
  have : (0xFF0000 : Nat) = (2 ^ 8 - 1) <<< 16 := by decide
  rw [this, Nat.testBit_shiftLeft, Nat.testBit_two_pow_sub_one]
  by_cases h : 16 ≤ j
  · simp [h]; omega
  · simp [h]

/-- The bits of the mask `0x00FF00` are bits 8 to 15. -/
theorem testBit_mask_00FF00 (j : Nat) : Nat.testBit 0x00FF00 j = (decide (8 ≤ j) && decide (j < 16)) := by
  have : (0x00FF00 : Nat) = (2 ^ 8 - 1) <<< 8 := by decide
  rw [this, Nat.testBit_shiftLeft, Nat.testBit_two_pow_sub_one]
  by_cases h : 8 ≤ j
  · simp [h]; omega
  · simp [h]

/-- A 32-bit value has no bit at position 32 or above. -/
theorem testBit_high (v : Nat) (hv : v < 2 ^ 32) (k : Nat) (hk : 32 ≤ k) :
    v.testBit k = false := by
  apply Nat.testBit_lt_two_pow
  calc v < 2 ^ 32 := hv
    _ ≤ 2 ^ k := Nat.pow_le_pow_right (by decide) hk

/-- Bit `j` of `ENDSWAP32(v)` for a 32-bit `v`: the four bytes of `v` in reverse order. -/
theorem testBit_ENDSWAP32 (v : Nat) (hv : v < 2 ^ 32) (j : Nat) :
    (ENDSWAP32 32 v).testBit j =
      if j < 8 then v.testBit (j + 24)
      else if j < 16 then v.testBit (j + 8)
      else if j < 24 then v.testBit (j - 8)
      else if j < 32 then v.testBit (j - 24)
      else false := by
  have hhi := testBit_high v hv
  simp only [ENDSWAP32, Nat.testBit_mod_two_pow, Nat.testBit_or, Nat.testBit_shiftRight,
    Nat.testBit_shiftLeft, Nat.testBit_and, testBit_mask_FF0000, testBit_mask_00FF00]
  split_ifs with h1 h2 h3 h4
  · have a1 : 24 + j = j + 24 := by omega
    simp [h1, a1, show j < 32 by omega, show ¬ 16 ≤ 8 + j by omega, show ¬ 8 ≤ j by omega,
      show ¬ 24 ≤ j by omega, show ¬ 16 ≤ j by omega]
  · have a1 : 8 + j = j + 8 := by omega
    simp [hhi (24 + j) (by omega), a1, show j < 32 by omega, show 16 ≤ j + 8 by omega,
      show j + 8 < 24 by omega, show 8 ≤ j by omega, show ¬ 8 ≤ j - 8 by omega,
      show ¬ 24 ≤ j by omega, show ¬ 16 ≤ j by omega]
  · simp [hhi (24 + j) (by omega), show j < 32 by omega, show ¬ 8 + j < 24 by omega,
      show 8 ≤ j by omega, show 8 ≤ j - 8 by omega, show j - 8 < 16 by omega,
      show ¬ 24 ≤ j by omega, show 16 ≤ j by omega]
  · simp [hhi (24 + j) (by omega), show j < 32 by omega, show ¬ 8 + j < 24 by omega,
      show 8 ≤ j by omega, show ¬ j - 8 < 16 by omega, show 24 ≤ j by omega]
  · simp [show ¬ j < 32 by omega]

/-- Swapping a 32-bit value twice gives it back. -/
theorem ENDSWAP32_involutive (v : Nat) (hv : v < 2 ^ 32) : ENDSWAP32 32 (ENDSWAP32 32 v) = v := by
  have hlt : ENDSWAP32 32 v < 2 ^ 32 := by
    unfold ENDSWAP32
    exact Nat.mod_lt _ (by decide)
  have hhi := testBit_high v hv
  apply Nat.eq_of_testBit_eq
  intro j
  rw [testBit_ENDSWAP32 _ hlt]
  simp only [testBit_ENDSWAP32 _ hv]
  by_cases h1 : j < 8
  · simp [h1, show ¬ j + 24 < 8 by omega, show ¬ j + 24 < 16 by omega,
      show ¬ j + 24 < 24 by omega, show j + 24 < 32 by omega]
  · by_cases h2 : j < 16
    · simp [h1, h2, show ¬ j + 8 < 8 by omega, show ¬ j + 8 < 16 by omega,
        show j + 8 < 24 by omega]
    · by_cases h3 : j < 24
      · simp [h1, h2, h3, show ¬ j - 8 < 8 by omega, show j - 8 < 16 by omega,
          show j - 8 + 8 = j by omega]
      · by_cases h4 : j < 32
        · simp [h1, h2, h3, h4, show j - 24 < 8 by omega, show j - 24 + 24 = j by omega]
        · simp [h1, h2, h3, h4, hhi j (by omega)]

/-- Byte `i` of `ENDSWAP32(v)` is byte `3 - i` of the 32-bit value `v`. -/
theorem ENDSWAP32_bytes (v : Nat) (hv : v < 2 ^ 32) :
    ENDSWAP32 32 v % 256 = (v >>> 24) % 256 ∧
    (ENDSWAP32 32 v >>> 8) % 256 = (v >>> 16) % 256 ∧
    (ENDSWAP32 32 v >>> 16) % 256 = (v >>> 8) % 256 ∧
    (ENDSWAP32 32 v >>> 24) % 256 = v % 256 := by
  have h256 : (256 : Nat) = 2 ^ 8 := by decide
  rw [h256]
  refine ⟨?_, ?_, ?_, ?_⟩ <;>
  · apply Nat.eq_of_testBit_eq
    intro j
    simp only [Nat.testBit_mod_two_pow, Nat.testBit_shiftRight, testBit_ENDSWAP32 v hv]
    by_cases hj : j < 8
    · simp [hj, show ¬ 8 + j < 8 by omega, show 8 + j < 16 by omega,
        show ¬ 16 + j < 8 by omega, show ¬ 16 + j < 16 by omega, show 16 + j < 24 by omega,
        show ¬ 24 + j < 8 by omega, show ¬ 24 + j < 16 by omega, show ¬ 24 + j < 24 by omega,
        show 24 + j < 32 by omega, show 8 + j + 8 = 16 + j by omega,
        show 16 + j - 8 = 8 + j by omega, show 24 + j - 24 = j by omega,
        show j + 24 = 24 + j by omega]
    · simp [hj]

/-- On a host whose `size_t` has 4 bytes, `Install` decodes its length field
as `Eval` does. -/
theorem declaredLen_install_eq_eval (env : Env) (msg : AJ_Message) (raw : List Nat)
    (h4 : env.sizeofSizeT = 4) :
    declaredLen env msg env.sizeofSizeT raw = declaredLen env msg 4 raw := by
  rw [h4]

/-- C14: on a host whose `size_t` has 8 bytes `Install` does not decode the
length `Eval` decodes. From the 4 bytes `00 00 00 04` of a big-endian sender
(the receive buffer holding zeros after them) `Eval` decodes 4 and `Install`
decodes 4 + 2^50, its `ENDSWAP32` on a `size_t` not being a 32-bit swap; from `04 00 00 00` followed by the script `1+1;`
`Eval` decodes 4 while `Install` takes the script bytes into the length and
answers (3, "Script too long"). On the host of `sampleEnv`, whose `size_t` has
4 bytes, both decode 4. -/
theorem install_length_width :
    declaredLen env64 evalMsgBig 4 [0, 0, 0, 4] = 4 ∧
      declaredLen env64 installMsgBig env64.sizeofSizeT [0, 0, 0, 4] = 4 + 2 ^ 50 ∧
      declaredLen env64 evalMsg 4 [4, 0, 0, 0, 49, 43, 49, 59] = 4 ∧
      declaredLen env64 installMsg env64.sizeofSizeT [4, 0, 0, 0, 49, 43, 49, 59]
        = 4 + 2 ^ 32 * 993078065 ∧
      (Install env64 installMsg (cleanState [.ok [4, 0, 0, 0, 49, 43, 49, 59]])).events
        = [.UnmarshalArgs "s", .UnmarshalRaw 8, .MarshalReplyMsg,
           .MarshalArgs 3 "Script too long", .DeliverMsg] ∧
      declaredLen sampleEnv installMsgBig sampleEnv.sizeofSizeT [0, 0, 0, 4] = 4 ∧
      declaredLen sampleEnv installMsg sampleEnv.sizeofSizeT [4, 0, 0, 0, 49, 43, 49, 59]
        = 4 := by
  decide

end AJSConsole
